import Mathlib

/-!
Shallow embedding of the trivia-session core of `src/botkviz.py`
(classes `GameSession` and `GameManager`, plus the `leave_game` branch of
`handle_webapp_data`), and theorems settling the frozen claims about it.

Modelling conventions:
- Python `dict` (insertion-ordered, unique keys) is an association list
  `List (κ × β)`; assignment updates in place when the key is present and
  appends otherwise; `del` removes the entry.
- Python `set` is a duplicate-free `List`; only membership, size, `add`,
  `remove`/`discard` and `clear` are used by the source.
- Python `int` is `Int` for externally supplied values (user ids, question
  and answer indices); `current_question` and scores are `Nat` (they start
  at 0 and are only ever incremented).
- Python list indexing (`xs[i]`, which supports negative indices and raises
  `IndexError` out of range) is `pyGet`.
- A function that can raise returns `Except String _`; the `.error` value
  names the Python exception class, and the manager state returned alongside
  is the state at the moment the exception propagates (mutations already
  performed stay performed).
- `asyncio.Event` is a `Bool` flag (`set` ↔ `true`, `clear` ↔ `false`);
  wall-clock timestamps inside answer records and the outbound chat
  notifications are dropped: neither is observable by any claim.
- `random`-driven code generation (`generate_game_code`) is modelled by
  passing the generated code as an argument; the code is recorded in
  `used_codes` exactly as the source does.
-/

deriving instance DecidableEq for Except

namespace BotKviz

/-- `d.get(k)` on an insertion-ordered Python dict modelled as an
association list: value of the first entry with the given key. -/
def dlookup {κ β : Type} [DecidableEq κ] (k : κ) : List (κ × β) → Option β
  | [] => none
  | (k', v) :: rest => if k' = k then some v else dlookup k rest

/-- `d[k] = v` on a Python dict: update the entry in place (keys are
unique, so replacing the first occurrence is the general case) when the
key is present, append otherwise. -/
def dinsert {κ β : Type} [DecidableEq κ] (k : κ) (v : β) :
    List (κ × β) → List (κ × β)
  | [] => [(k, v)]
  | p :: rest => if p.1 = k then (k, v) :: rest else p :: dinsert k v rest

/-- `del d[k]` on a Python dict (no-op when the key is absent, matching the
guarded deletes in the source). -/
def derase {κ β : Type} [DecidableEq κ] (k : κ) (l : List (κ × β)) :
    List (κ × β) :=
  l.filter (fun p => decide (p.1 ≠ k))

/-- The keys of a Python dict, in insertion order. -/
def dkeys {κ β : Type} (l : List (κ × β)) : List κ := l.map Prod.fst

/-- `s.add(x)` on a Python set modelled as a duplicate-free list. -/
def sadd {α : Type} [DecidableEq α] (x : α) (s : List α) : List α :=
  if x ∈ s then s else s ++ [x]

/-- `s.remove(x)` / `s.discard(x)` on a Python set. -/
def serase {α : Type} [DecidableEq α] (x : α) (s : List α) : List α :=
  s.filter (fun y => decide (y ≠ x))

/-- Python list indexing `xs[i]`: negative indices count from the end, and
out-of-range access raises `IndexError` (here: `none`). -/
def pyGet {α : Type} (l : List α) (i : Int) : Option α :=
  if 0 ≤ i then l.get? i.toNat
  else if 0 ≤ (l.length : Int) + i then l.get? ((l.length : Int) + i).toNat
  else none

/-- `str.upper()`: uppercase every character (the session codes and user
input here are ASCII, where `Char.toUpper` agrees with Python). -/
def pyUpper (s : String) : String := ⟨s.data.map Char.toUpper⟩

/-- `str.strip()`: drop leading and trailing whitespace. -/
def pyStrip (s : String) : String :=
  ⟨((s.data.dropWhile Char.isWhitespace).reverse.dropWhile
      Char.isWhitespace).reverse⟩

/-- `game_id.upper().strip()`, applied by every `GameManager` entry point
except `start_game`. -/
def norm (s : String) : String := pyStrip (pyUpper s)

/-- One entry of the question bank: `{"question": ..., "options": [...],
"correct": int}`. The prompt text is not consulted by the core. -/
structure Question where
  options : List String
  correct : Int
deriving DecidableEq

/-- The per-player dict stored in `GameSession.players`:
`{"username": ..., "ready": False}`. -/
structure PlayerData where
  username : String
  ready : Bool
deriving DecidableEq

/-- One element of a participant's answer ledger, as appended by
`GameSession.submit_answer` (the wall-clock timestamp is dropped). -/
structure AnswerRec where
  question_id : Int
  answer : String
  correct : Bool
deriving DecidableEq

/-- The state of `GameSession` (the `waiting_for_next` event is its
set/clear flag). -/
structure GameSession where
  game_id : String
  creator_id : Int
  creator_name : String
  players : List (Int × PlayerData)
  scores : List (Int × Nat)
  answers : List (Int × List AnswerRec)
  current_question : Nat
  started : Bool
  finished : Bool
  created_at : Nat
  answered_players : List Int
  waiting_for_next : Bool
deriving DecidableEq

/-- The state of `GameManager`. -/
structure GameManager where
  games : List (String × GameSession)
  user_games : List (Int × String)
  used_codes : List String
deriving DecidableEq

/-- `MAX_PLAYERS`.  Modelled from the spec: `config.py` (imported by the
source but absent from the sources here) defines it; the spec fixes the
configured maximum number of participants per session at 6. -/
def MAX_PLAYERS : Nat := 6

namespace GameSession

/-- `GameSession.add_player`. -/
def add_player (s : GameSession) (user_id : Int) (username : String) :
    GameSession × Bool :=
  if (dlookup user_id s.players).isSome = false ∧
      (dkeys s.players).length < MAX_PLAYERS then
    ({ s with
        players := dinsert user_id ⟨username, false⟩ s.players,
        scores := dinsert user_id 0 s.scores,
        answers := dinsert user_id [] s.answers }, true)
  else (s, false)

/-- `GameSession.__init__`: all fields initialised, then the creator is
added via `add_player`. -/
def init (game_id : String) (creator_id : Int) (creator_name : String)
    (now : Nat) : GameSession :=
  (add_player
    { game_id := game_id, creator_id := creator_id,
      creator_name := creator_name, players := [], scores := [],
      answers := [], current_question := 0, started := false,
      finished := false, created_at := now, answered_players := [],
      waiting_for_next := false }
    creator_id creator_name).1

/-- `GameSession.get_player_count`. -/
def get_player_count (s : GameSession) : Nat := (dkeys s.players).length

/-- `GameSession.submit_answer`: append to the answer ledger, then bump the
score when correct.  Either dict access can raise `KeyError`; the append
has already happened when the score lookup fails. -/
def submit_answer (s : GameSession) (user_id : Int) (question_id : Int)
    (answer : String) (is_correct : Bool) :
    GameSession × Option String :=
  match dlookup user_id s.answers with
  | none => (s, some "KeyError")
  | some ledger =>
    let s1 := { s with
      answers := dinsert user_id
        (ledger ++ [⟨question_id, answer, is_correct⟩]) s.answers }
    if is_correct then
      match dlookup user_id s1.scores with
      | none => (s1, some "KeyError")
      | some sc =>
        ({ s1 with scores := dinsert user_id (sc + 1) s1.scores }, none)
    else (s1, none)

/-- `GameSession.all_players_answered`. -/
def all_players_answered (s : GameSession) : Bool :=
  s.answered_players.length = (dkeys s.players).length

/-- `GameSession.reset_for_next_question`. -/
def reset_for_next_question (s : GameSession) : GameSession :=
  { s with answered_players := [], waiting_for_next := false }

end GameSession

/-- The value returned by `GameManager.submit_answer` when no exception is
raised: either one of the `{"error": ..., "status": "error"}` dicts or the
success dict (its pure `"status"` field is implied by the constructor). -/
inductive SubmitResult where
  | fail (message : String)
  | success (correct : Bool) (correct_answer : String) (score : Nat)
      (all_answered : Bool) (answered_count : Nat) (total_players : Nat)
deriving DecidableEq

namespace GameManager

/-- Store a (mutated-in-place) session back under its code. -/
def setGame (gm : GameManager) (gid : String) (g : GameSession) :
    GameManager :=
  { gm with games := dinsert gid g gm.games }

/-- `GameManager.create_game`.  The `random`-based `generate_game_code` is
modelled by the caller-supplied `code`, which `generate_game_code` records
in `used_codes` before returning it. -/
def create_game (gm : GameManager) (code : String) (creator_id : Int)
    (creator_name : String) (now : Nat) : GameManager × String :=
  let gm1 := { gm with used_codes := sadd code gm.used_codes }
  ({ gm1 with
      games := dinsert code
        (GameSession.init code creator_id creator_name now) gm1.games,
      user_games := dinsert creator_id code gm1.user_games }, code)

/-- `GameManager.join_game` (the returned `Bool` is the `"success"` field;
the `game_info` payload is a pure read and is not modelled). -/
def join_game (gm : GameManager) (game_id : String) (user_id : Int)
    (username : String) : GameManager × Bool :=
  let gid := norm game_id
  match dlookup gid gm.games with
  | none => (gm, false)
  | some game =>
    if game.started = false ∧ game.get_player_count < MAX_PLAYERS then
      match game.add_player user_id username with
      | (g1, true) =>
        ({ gm with
            games := dinsert gid g1 gm.games,
            user_games := dinsert user_id gid gm.user_games }, true)
      | (_, false) => (gm, false)
    else (gm, false)

/-- `GameManager.start_game` (which, unlike every other entry point, does
not normalise the code; the outbound notification loop is dropped). -/
def start_game (gm : GameManager) (game_id : String) (user_id : Int) :
    GameManager × Bool :=
  match dlookup game_id gm.games with
  | none => (gm, false)
  | some game =>
    if game.creator_id = user_id then
      if (dkeys game.players).length < 2 then (gm, false)
      else (setGame gm game_id { game with started := true }, true)
    else (gm, false)

/-- `GameManager.submit_answer`.  Mirrors the source's evaluation order:
the three guards, then `QUESTIONS[question_id]`, then
`question["options"][answer_index]` (evaluated as the call argument), then
`GameSession.submit_answer`, then `answered_players.add`, the all-answered
check and barrier signal, and finally the result dict whose
`"correct_answer"` and `"score"` entries can still raise. -/
def submit_answer (Q : List Question) (gm : GameManager) (game_id : String)
    (user_id : Int) (question_id : Int) (answer_index : Int) :
    GameManager × Except String SubmitResult :=
  let gid := norm game_id
  match dlookup gid gm.games with
  | none => (gm, .ok (.fail "Game not found"))
  | some game =>
    if game.started = false then (gm, .ok (.fail "Game not started"))
    else if question_id ≠ (game.current_question : Int) then
      (gm, .ok (.fail "Wrong question"))
    else if user_id ∈ game.answered_players then
      (gm, .ok (.fail "Already answered"))
    else
      match pyGet Q question_id with
      | none => (gm, .error "IndexError")
      | some question =>
        let is_correct := decide (answer_index = question.correct)
        match pyGet question.options answer_index with
        | none => (gm, .error "IndexError")
        | some chosen_text =>
          match game.submit_answer user_id question_id chosen_text
              is_correct with
          | (g1, some e) => (setGame gm gid g1, .error e)
          | (g1, none) =>
            let g2 := { g1 with
              answered_players := sadd user_id g1.answered_players }
            let all_answered := g2.all_players_answered
            let g3 :=
              if all_answered then { g2 with waiting_for_next := true }
              else g2
            match pyGet question.options question.correct with
            | none => (setGame gm gid g3, .error "IndexError")
            | some correct_text =>
              match dlookup user_id g3.scores with
              | none => (setGame gm gid g3, .error "KeyError")
              | some sc =>
                (setGame gm gid g3,
                 .ok (.success is_correct correct_text sc all_answered
                   g3.answered_players.length (dkeys g3.players).length))

/-- `GameManager.next_question`. -/
def next_question (Q : List Question) (gm : GameManager)
    (game_id : String) : GameManager × Bool :=
  let gid := norm game_id
  match dlookup gid gm.games with
  | none => (gm, false)
  | some game =>
    if game.started = false then (gm, false)
    else
      let g1 := { game with current_question := game.current_question + 1 }
      let g2 := g1.reset_for_next_question
      let g3 :=
        if Q.length ≤ g2.current_question then { g2 with finished := true }
        else g2
      (setGame gm gid g3, true)

end GameManager

/-- One `{"username": ..., "score": ..., "total": ...}` entry of the
results list. -/
structure ResultRow where
  username : String
  score : Nat
  total : Nat
deriving DecidableEq

/-- The loop body of `GameManager.get_results`: one row per `scores` entry
in insertion order, raising `KeyError` when a scored user has no roster
entry. -/
def buildRows (Q : List Question) (g : GameSession) :
    List (Int × Nat) → Except String (List ResultRow)
  | [] => .ok []
  | (uid, sc) :: rest =>
    match dlookup uid g.players with
    | none => .error "KeyError"
    | some pd =>
      match buildRows Q g rest with
      | .error e => .error e
      | .ok rows => .ok (⟨pd.username, sc, Q.length⟩ :: rows)

namespace GameManager

/-- `GameManager.get_results`.  `list.sort(key=..., reverse=True)` is a
stable descending sort, modelled by `List.mergeSort` with the
score-greater-or-equal comparator. -/
def get_results (Q : List Question) (gm : GameManager) (game_id : String) :
    Option (Except String (List ResultRow)) :=
  let gid := norm game_id
  match dlookup gid gm.games with
  | none => none
  | some game =>
    match buildRows Q game game.scores with
    | .error e => some (.error e)
    | .ok rows =>
      some (.ok (rows.mergeSort (fun a b => decide (b.score ≤ a.score))))

/-- `GameManager.end_game`. -/
def end_game (gm : GameManager) (game_id : String) : GameManager :=
  let gid := norm game_id
  match dlookup gid gm.games with
  | none => gm
  | some game =>
    let ug := (dkeys game.players).foldl
      (fun m pid => derase pid m) gm.user_games
    { games := derase gid gm.games, user_games := ug,
      used_codes := serase gid gm.used_codes }

/-- The `leave_game` branch of `handle_webapp_data`: if the user has a
reverse-index entry, remove them from the first stored session whose
roster contains them, clear the reverse-index entry, and — when that
roster becomes empty — call `end_game` on the id supplied in the request
(not necessarily the id of the session just emptied).  The returned `Bool`
is `true` for the `'status': 'success'` response. -/
def leave_game (gm : GameManager) (game_id_raw : String) (user_id : Int) :
    GameManager × Bool :=
  let game_id := norm game_id_raw
  if (dlookup user_id gm.user_games).isSome then
    match gm.games.find? (fun p => (dlookup user_id p.2.players).isSome) with
    | none => (gm, true)
    | some (gid, game) =>
      let g1 := { game with
        players := derase user_id game.players,
        scores := derase user_id game.scores,
        answers := derase user_id game.answers,
        answered_players := serase user_id game.answered_players }
      let gm1 := { gm with
        games := dinsert gid g1 gm.games,
        user_games := derase user_id gm.user_games }
      let gm2 :=
        if (dkeys g1.players).length = 0 then gm1.end_game game_id else gm1
      (gm2, true)
  else (gm, false)

end GameManager

/-! Supporting lemmas about the Python dict and set models. -/

theorem dlookup_isSome_iff_mem_dkeys {κ β : Type} [DecidableEq κ] (k : κ)
    (l : List (κ × β)) : (dlookup k l).isSome = true ↔ k ∈ dkeys l := by
  induction l with
  | nil => simp [dlookup, dkeys]
  | cons p rest ih =>
    simp only [dlookup, dkeys, List.map_cons, List.mem_cons]
    by_cases h : p.1 = k
    · simp [h]
    · rw [if_neg h]
      simp only [dkeys] at ih
      rw [ih]
      constructor
      · exact Or.inr
      · rintro (rfl | hm)
        · exact absurd rfl h
        · exact hm

theorem dlookup_dinsert_self {κ β : Type} [DecidableEq κ] (k : κ) (v : β)
    (l : List (κ × β)) : dlookup k (dinsert k v l) = some v := by
  induction l with
  | nil => simp [dinsert, dlookup]
  | cons p rest ih =>
    by_cases h : p.1 = k <;> simp [dinsert, dlookup, h, ih]

theorem dlookup_dinsert_ne {κ β : Type} [DecidableEq κ] {k k' : κ} (v : β)
    (l : List (κ × β)) (h : k' ≠ k) :
    dlookup k' (dinsert k v l) = dlookup k' l := by
  have h' : k ≠ k' := Ne.symm h
  induction l with
  | nil => simp [dinsert, dlookup, h']
  | cons p rest ih =>
    by_cases hp : p.1 = k
    · have hne : p.1 ≠ k' := by rw [hp]; exact h'
      simp [dinsert, dlookup, hp, hne, h']
    · by_cases hp' : p.1 = k' <;> simp [dinsert, dlookup, hp, hp', h, ih]

theorem dkeys_append {κ β : Type} (l₁ l₂ : List (κ × β)) :
    dkeys (l₁ ++ l₂) = dkeys l₁ ++ dkeys l₂ := by
  simp [dkeys]

theorem length_dkeys {κ β : Type} (l : List (κ × β)) :
    (dkeys l).length = l.length := by
  simp [dkeys]

theorem dkeys_dinsert_of_isSome {κ β : Type} [DecidableEq κ] (k : κ) (v : β)
    (l : List (κ × β)) (h : (dlookup k l).isSome = true) :
    dkeys (dinsert k v l) = dkeys l := by
  induction l with
  | nil => simp [dlookup] at h
  | cons p rest ih =>
    by_cases hp : p.1 = k
    · simp [dinsert, dkeys, hp]
    · simp only [dlookup, if_neg hp] at h
      simp [dinsert, dkeys, hp, ih h]
      simpa [dkeys] using ih h

theorem dkeys_dinsert_of_none {κ β : Type} [DecidableEq κ] (k : κ) (v : β)
    (l : List (κ × β)) (h : dlookup k l = none) :
    dkeys (dinsert k v l) = dkeys l ++ [k] := by
  induction l with
  | nil => simp [dinsert, dkeys]
  | cons p rest ih =>
    by_cases hp : p.1 = k
    · simp [dlookup, hp] at h
    · simp only [dlookup, if_neg hp] at h
      simp only [dinsert, if_neg hp, dkeys, List.map_cons, List.cons_append]
      simpa [dkeys] using ih h

theorem length_dinsert_of_isSome {κ β : Type} [DecidableEq κ] (k : κ)
    (v : β) (l : List (κ × β)) (h : (dlookup k l).isSome = true) :
    (dinsert k v l).length = l.length := by
  have := dkeys_dinsert_of_isSome k v l h
  rw [← length_dkeys, this, length_dkeys]

theorem length_dinsert_of_none {κ β : Type} [DecidableEq κ] (k : κ)
    (v : β) (l : List (κ × β)) (h : dlookup k l = none) :
    (dinsert k v l).length = l.length + 1 := by
  have := dkeys_dinsert_of_none k v l h
  rw [← length_dkeys, this, List.length_append, length_dkeys,
    List.length_singleton]

theorem dinsert_eq_self {κ β : Type} [DecidableEq κ] {k : κ} {v : β}
    {l : List (κ × β)} (h : dlookup k l = some v) :
    dinsert k v l = l := by
  induction l with
  | nil => simp [dlookup] at h
  | cons p rest ih =>
    by_cases hp : p.1 = k
    · have hv : p.2 = v := by simpa [dlookup, hp] using h
      simp only [dinsert, if_pos hp]
      rw [← hp, ← hv]
    · simp only [dlookup, if_neg hp] at h
      simp [dinsert, hp, ih h]

theorem derase_cons {κ β : Type} [DecidableEq κ] (k : κ) (p : κ × β)
    (rest : List (κ × β)) :
    derase k (p :: rest) =
      if p.1 = k then derase k rest else p :: derase k rest := by
  by_cases hp : p.1 = k <;> simp [derase, List.filter_cons, hp]

theorem dlookup_derase_self {κ β : Type} [DecidableEq κ] (k : κ)
    (l : List (κ × β)) : dlookup k (derase k l) = none := by
  induction l with
  | nil => simp [dlookup, derase]
  | cons p rest ih =>
    rw [derase_cons]
    by_cases hp : p.1 = k
    · rwa [if_pos hp]
    · rw [if_neg hp]
      simpa [dlookup, hp] using ih

theorem dlookup_derase_ne {κ β : Type} [DecidableEq κ] {k k' : κ}
    (l : List (κ × β)) (h : k' ≠ k) :
    dlookup k' (derase k l) = dlookup k' l := by
  induction l with
  | nil => simp [dlookup, derase]
  | cons p rest ih =>
    rw [derase_cons]
    by_cases hp : p.1 = k
    · have hne : p.1 ≠ k' := by rw [hp]; exact Ne.symm h
      rw [if_pos hp, ih]
      simp [dlookup, hne]
    · rw [if_neg hp]
      by_cases hp' : p.1 = k' <;> simp [dlookup, hp', ih]

theorem dkeys_derase {κ β : Type} [DecidableEq κ] (k : κ)
    (l : List (κ × β)) :
    dkeys (derase k l) = (dkeys l).filter (fun x => decide (x ≠ k)) := by
  induction l with
  | nil => simp [dkeys, derase]
  | cons p rest ih =>
    rw [derase_cons]
    by_cases hp : p.1 = k
    · rw [if_pos hp]
      simp [dkeys, List.filter_cons, hp, ih]
      simpa [dkeys] using ih
    · rw [if_neg hp]
      simp only [dkeys, List.map_cons, List.filter_cons]
      simp [hp]
      simpa [dkeys] using ih

theorem nodup_dkeys_dinsert {κ β : Type} [DecidableEq κ] (k : κ) (v : β)
    (l : List (κ × β)) (h : (dkeys l).Nodup) :
    (dkeys (dinsert k v l)).Nodup := by
  by_cases hk : (dlookup k l).isSome = true
  · rwa [dkeys_dinsert_of_isSome k v l hk]
  · rw [dkeys_dinsert_of_none k v l (by
      cases hl : dlookup k l
      · rfl
      · simp [hl] at hk)]
    refine List.Nodup.append h (List.nodup_singleton k) ?_
    intro x hx hx'
    simp only [List.mem_singleton] at hx'
    subst hx'
    exact hk ((dlookup_isSome_iff_mem_dkeys x l).mpr hx)

theorem mem_sadd {α : Type} [DecidableEq α] (x y : α) (s : List α) :
    y ∈ sadd x s ↔ y ∈ s ∨ y = x := by
  unfold sadd
  by_cases h : x ∈ s
  · simp only [if_pos h]
    constructor
    · exact Or.inl
    · rintro (hy | rfl) <;> [exact hy; exact h]
  · simp [if_neg h]

theorem sadd_of_not_mem {α : Type} [DecidableEq α] {x : α} {s : List α}
    (h : x ∉ s) : sadd x s = s ++ [x] := by
  simp [sadd, h]

theorem nodup_sadd {α : Type} [DecidableEq α] (x : α) {s : List α}
    (h : s.Nodup) : (sadd x s).Nodup := by
  unfold sadd
  by_cases hx : x ∈ s
  · simpa [if_pos hx]
  · simp only [if_neg hx]
    refine List.Nodup.append h (List.nodup_singleton x) ?_
    intro a ha ha'
    simp only [List.mem_singleton] at ha'
    exact hx (ha' ▸ ha)

theorem mem_serase {α : Type} [DecidableEq α] (x y : α) (s : List α) :
    y ∈ serase x s ↔ y ∈ s ∧ y ≠ x := by
  simp [serase]

/-! Facts about the session-level operations. -/

theorem GameSession.submit_answer_fields (s : GameSession) (u q : Int)
    (a : String) (c : Bool) :
    ((s.submit_answer u q a c).1).players = s.players ∧
    ((s.submit_answer u q a c).1).started = s.started ∧
    ((s.submit_answer u q a c).1).finished = s.finished ∧
    ((s.submit_answer u q a c).1).current_question = s.current_question ∧
    ((s.submit_answer u q a c).1).answered_players = s.answered_players ∧
    ((s.submit_answer u q a c).1).waiting_for_next = s.waiting_for_next := by
  unfold GameSession.submit_answer
  split
  · exact ⟨rfl, rfl, rfl, rfl, rfl, rfl⟩
  · dsimp only
    split
    · split
      · exact ⟨rfl, rfl, rfl, rfl, rfl, rfl⟩
      · exact ⟨rfl, rfl, rfl, rfl, rfl, rfl⟩
    · exact ⟨rfl, rfl, rfl, rfl, rfl, rfl⟩

theorem GameSession.submit_answer_success (s : GameSession) (u q : Int)
    (a : String) (c : Bool) (ledger : List AnswerRec) (sc : Nat)
    (hans : dlookup u s.answers = some ledger)
    (hsc : dlookup u s.scores = some sc) :
    s.submit_answer u q a c =
      ({ s with
          answers := dinsert u (ledger ++ [⟨q, a, c⟩]) s.answers,
          scores := if c then dinsert u (sc + 1) s.scores
            else s.scores }, none) := by
  unfold GameSession.submit_answer
  rw [hans]
  cases c
  · simp
  · simp [hsc]

/-- `GameSession.submit_answer` with an incorrect answer never touches
the scores. -/
theorem GameSession.submit_answer_false (s : GameSession) (u q : Int)
    (a : String) (ledger : List AnswerRec)
    (hans : dlookup u s.answers = some ledger) :
    s.submit_answer u q a false =
      ({ s with
          answers := dinsert u (ledger ++ [⟨q, a, false⟩]) s.answers },
        none) := by
  unfold GameSession.submit_answer
  rw [hans]
  rfl

/-- The three guard failures of `GameManager.submit_answer`, each leaving
the whole registry untouched: the game exists but is not started. -/
theorem submit_answer_not_started (Q : List Question) (gm : GameManager)
    (game_id : String) (user_id question_id answer_index : Int)
    (game : GameSession) (hg : dlookup (norm game_id) gm.games = some game)
    (hs : game.started = false) :
    GameManager.submit_answer Q gm game_id user_id question_id answer_index
      = (gm, .ok (.fail "Game not started")) := by
  simp [GameManager.submit_answer, hg, hs]

/-- Guard failure: started, but the supplied question index is stale. -/
theorem submit_answer_wrong_question (Q : List Question) (gm : GameManager)
    (game_id : String) (user_id question_id answer_index : Int)
    (game : GameSession) (hg : dlookup (norm game_id) gm.games = some game)
    (hs : game.started = true)
    (hq : question_id ≠ (game.current_question : Int)) :
    GameManager.submit_answer Q gm game_id user_id question_id answer_index
      = (gm, .ok (.fail "Wrong question")) := by
  simp [GameManager.submit_answer, hg, hs, hq]

/-- Guard failure: started, current question, but already answered. -/
theorem submit_answer_already_answered (Q : List Question)
    (gm : GameManager) (game_id : String)
    (user_id question_id answer_index : Int) (game : GameSession)
    (hg : dlookup (norm game_id) gm.games = some game)
    (hs : game.started = true)
    (hq : question_id = (game.current_question : Int))
    (hmem : user_id ∈ game.answered_players) :
    GameManager.submit_answer Q gm game_id user_id question_id answer_index
      = (gm, .ok (.fail "Already answered")) := by
  simp [GameManager.submit_answer, hg, hs, hq, hmem]

/-- Inversion of a successful submission: the guards all passed and the
stored session keeps its phase and question index, with the submitter now
in the answered-set. -/
theorem submit_answer_success_inv (Q : List Question) (gm : GameManager)
    (game_id : String) (user_id question_id answer_index : Int)
    (game : GameSession) (hg : dlookup (norm game_id) gm.games = some game)
    (gm' : GameManager) (c aa : Bool) (ca : String) (sc : Nat) (ac tp : Nat)
    (h : GameManager.submit_answer Q gm game_id user_id question_id
        answer_index = (gm', .ok (.success c ca sc aa ac tp))) :
    game.started = true ∧ question_id = (game.current_question : Int) ∧
    user_id ∉ game.answered_players ∧
    ∃ g3 : GameSession,
      gm' = GameManager.setGame gm (norm game_id) g3 ∧
      g3.started = true ∧ g3.current_question = game.current_question ∧
      g3.players = game.players ∧
      user_id ∈ g3.answered_players := by
  simp only [GameManager.submit_answer, hg] at h
  by_cases hs : game.started = false
  · simp [hs] at h
  · rw [if_neg hs] at h
    by_cases hq : question_id = (game.current_question : Int)
    · rw [if_neg (by simpa using hq)] at h
      by_cases hmem : user_id ∈ game.answered_players
      · simp [hmem] at h
      · rw [if_neg hmem] at h
        refine ⟨by simpa using hs, hq, hmem, ?_⟩
        cases hQ : pyGet Q question_id with
        | none => rw [hQ] at h; simp at h
        | some question =>
          rw [hQ] at h
          dsimp only at h
          cases hA : pyGet question.options answer_index with
          | none => rw [hA] at h; simp at h
          | some chosen =>
            rw [hA] at h
            dsimp only at h
            cases hSub : game.submit_answer user_id question_id chosen
                (decide (answer_index = question.correct)) with
            | mk g1 oerr =>
              rw [hSub] at h
              have hfields := GameSession.submit_answer_fields game user_id
                question_id chosen (decide (answer_index = question.correct))
              rw [hSub] at hfields
              cases oerr with
              | some e => simp at h
              | none =>
                dsimp only at h
                obtain ⟨hp1, hs1, hf1, hc1, ha1, hw1⟩ := hfields
                have hp1' : g1.players = game.players := hp1
                have hs1' : g1.started = game.started := hs1
                have hc1' : g1.current_question = game.current_question := hc1
                have hstart : game.started = true := by simpa using hs
                set g2 : GameSession := { g1 with
                  answered_players := sadd user_id g1.answered_players }
                  with hg2
                set g3 : GameSession :=
                  if g2.all_players_answered = true then
                    { g2 with waiting_for_next := true }
                  else g2 with hg3
                have hg3p : g3.players = game.players := by
                  rw [hg3]
                  split <;> exact hp1'
                have hg3s : g3.started = true := by
                  rw [hg3]
                  split <;> exact hs1'.trans hstart
                have hg3c : g3.current_question = game.current_question := by
                  rw [hg3]
                  split <;> exact hc1'
                have hmem' : user_id ∈ sadd user_id g1.answered_players :=
                  (mem_sadd user_id user_id g1.answered_players).mpr
                    (Or.inr rfl)
                have hg3a : user_id ∈ g3.answered_players := by
                  rw [hg3]
                  split <;> exact hmem'
                cases hC : pyGet question.options question.correct with
                | none => rw [hC] at h; simp [hg3, hg2] at h
                | some ctext =>
                  rw [hC] at h
                  dsimp only at h
                  cases hS : dlookup user_id g3.scores with
                  | none =>
                    rw [show dlookup user_id
                        (if g2.all_players_answered = true then
                          { g2 with waiting_for_next := true }
                        else g2).scores = none from hg3 ▸ hS] at h
                    simp at h
                  | some s0 =>
                    rw [show dlookup user_id
                        (if g2.all_players_answered = true then
                          { g2 with waiting_for_next := true }
                        else g2).scores = some s0 from hg3 ▸ hS] at h
                    refine ⟨g3, ?_, hg3s, hg3c, hg3p, hg3a⟩
                    have := congrArg Prod.fst h
                    simpa [hg3] using this.symm
    · rw [if_pos hq] at h
      simp at h

theorem dlookup_dinsert_cases {κ β : Type} [DecidableEq κ] (k k' : κ)
    (v : β) (l : List (κ × β)) :
    dlookup k' (dinsert k v l) =
      if k' = k then some v else dlookup k' l := by
  by_cases h : k' = k
  · subst h; simp [dlookup_dinsert_self]
  · simp [h, dlookup_dinsert_ne v l h]

theorem dlookup_derase_cases {κ β : Type} [DecidableEq κ] (k k' : κ)
    (l : List (κ × β)) :
    dlookup k' (derase k l) = if k' = k then none else dlookup k' l := by
  by_cases h : k' = k
  · subst h; simp [dlookup_derase_self]
  · simp [h, dlookup_derase_ne l h]

theorem dlookup_foldl_derase {κ β : Type} [DecidableEq κ] (us : List κ)
    (m : List (κ × β)) (k : κ) :
    dlookup k (us.foldl (fun acc u => derase u acc) m) =
      if k ∈ us then none else dlookup k m := by
  induction us generalizing m with
  | nil => simp
  | cons u us ih =>
    simp only [List.foldl_cons, List.mem_cons]
    rw [ih]
    by_cases hk : k = u
    · subst hk
      simp [dlookup_derase_self]
    · by_cases hmem : k ∈ us <;> simp [hk, hmem, dlookup_derase_ne m hk]

/-- How `GameSession.submit_answer` transforms the session's maps: the
roster is untouched and the key sets of the score and ledger maps are
preserved; on the no-exception outcome the submitter was present in the
ledger map. -/
theorem GameSession.submit_answer_maps (s : GameSession) (u q : Int)
    (a : String) (c : Bool) :
    ((s.submit_answer u q a c).1).players = s.players ∧
    dkeys ((s.submit_answer u q a c).1).scores = dkeys s.scores ∧
    dkeys ((s.submit_answer u q a c).1).answers = dkeys s.answers ∧
    ((s.submit_answer u q a c).2 = none →
      (dlookup u s.answers).isSome = true) := by
  unfold GameSession.submit_answer
  cases hans : dlookup u s.answers with
  | none => exact ⟨rfl, rfl, rfl, by intro h; simp at h⟩
  | some ledger =>
    dsimp only
    cases c with
    | false =>
      refine ⟨rfl, rfl, ?_, fun _ => by simp [hans]⟩
      exact dkeys_dinsert_of_isSome u _ s.answers (by simp [hans])
    | true =>
      cases hsc : dlookup u s.scores with
      | none =>
        refine ⟨rfl, rfl, ?_, fun h => by simp at h⟩
        exact dkeys_dinsert_of_isSome u _ s.answers (by simp [hans])
      | some sc =>
        refine ⟨rfl, ?_, ?_, fun _ => by simp [hans]⟩
        · exact dkeys_dinsert_of_isSome u _ s.scores (by simp [hsc])
        · exact dkeys_dinsert_of_isSome u _ s.answers (by simp [hans])

/-- State left behind by `GameManager.join_game`: either the registry is
unchanged, or `add_player` succeeded and the stored session and reverse
index were extended. -/
theorem join_game_state (gm : GameManager) (game_id : String)
    (user_id : Int) (username : String) :
    (gm.join_game game_id user_id username).1 = gm ∨
    ∃ game g1, dlookup (norm game_id) gm.games = some game ∧
      game.add_player user_id username = (g1, true) ∧
      (gm.join_game game_id user_id username).1 =
        { gm with
            games := dinsert (norm game_id) g1 gm.games,
            user_games := dinsert user_id (norm game_id) gm.user_games } := by
  cases hl : dlookup (norm game_id) gm.games with
  | none => left; simp [GameManager.join_game, hl]
  | some game =>
    by_cases hcond : game.started = false ∧
        game.get_player_count < MAX_PLAYERS
    · cases hadd : game.add_player user_id username with
      | mk g1 ok =>
        cases ok with
        | false => left; simp [GameManager.join_game, hl, hcond, hadd]
        | true =>
          right
          exact ⟨game, g1, rfl, hadd,
            by simp [GameManager.join_game, hl, hcond, hadd]⟩
    · left; simp [GameManager.join_game, hl, hcond]

/-- State left behind by `GameManager.start_game`. -/
theorem start_game_state (gm : GameManager) (game_id : String)
    (user_id : Int) :
    (gm.start_game game_id user_id).1 = gm ∨
    ∃ game, dlookup game_id gm.games = some game ∧
      (gm.start_game game_id user_id).1 =
        GameManager.setGame gm game_id { game with started := true } := by
  cases hl : dlookup game_id gm.games with
  | none => left; simp [GameManager.start_game, hl]
  | some game =>
    by_cases hc : game.creator_id = user_id
    · by_cases hn : (dkeys game.players).length < 2
      · left; simp [GameManager.start_game, hl, hc, hn]
      · right
        exact ⟨game, rfl, by simp [GameManager.start_game, hl, hc, hn]⟩
    · left; simp [GameManager.start_game, hl, hc]

/-- State left behind by `GameManager.next_question`. -/
theorem next_question_state (Q : List Question) (gm : GameManager)
    (game_id : String) :
    (GameManager.next_question Q gm game_id).1 = gm ∨
    ∃ game, dlookup (norm game_id) gm.games = some game ∧
      game.started = true ∧
      (GameManager.next_question Q gm game_id).1 =
        GameManager.setGame gm (norm game_id)
          (let g2 := ({ game with
              current_question :=
                game.current_question + 1 }).reset_for_next_question
           if Q.length ≤ g2.current_question then
             { g2 with finished := true }
           else g2) := by
  cases hl : dlookup (norm game_id) gm.games with
  | none => left; simp [GameManager.next_question, hl]
  | some game =>
    by_cases hs : game.started = false
    · left; simp [GameManager.next_question, hl, hs]
    · right
      exact ⟨game, rfl, by simpa using hs,
        by simp [GameManager.next_question, hl, hs]⟩

/-- State left behind by `GameManager.submit_answer`: either unchanged, or
one stored session was rewritten with its roster intact, the key sets of
its score/ledger maps intact, and its answered-set either intact or grown
by the submitter. -/
theorem submit_answer_state (Q : List Question) (gm : GameManager)
    (game_id : String) (user_id question_id answer_index : Int) :
    (GameManager.submit_answer Q gm game_id user_id question_id
      answer_index).1 = gm ∨
    ∃ game g', dlookup (norm game_id) gm.games = some game ∧
      (GameManager.submit_answer Q gm game_id user_id question_id
        answer_index).1 = GameManager.setGame gm (norm game_id) g' ∧
      g'.players = game.players ∧
      dkeys g'.scores = dkeys game.scores ∧
      dkeys g'.answers = dkeys game.answers ∧
      (g'.answered_players = game.answered_players ∨
        ((dlookup user_id game.answers).isSome = true ∧
          g'.answered_players = sadd user_id game.answered_players)) := by
  cases hres : GameManager.submit_answer Q gm game_id user_id question_id
      answer_index with
  | mk gmR r =>
    cases hl : dlookup (norm game_id) gm.games with
    | none =>
      left
      have : gmR = gm := by
        have := hres
        simp only [GameManager.submit_answer, hl] at this
        exact (congrArg Prod.fst this).symm
      simp [this]
    | some game =>
      simp only [GameManager.submit_answer, hl] at hres
      by_cases hs : game.started = false
      · rw [if_pos hs] at hres
        left
        simpa using (congrArg Prod.fst hres).symm
      · rw [if_neg hs] at hres
        by_cases hq : question_id ≠ (game.current_question : Int)
        · rw [if_pos hq] at hres
          left
          simpa using (congrArg Prod.fst hres).symm
        · rw [if_neg hq] at hres
          by_cases hmem : user_id ∈ game.answered_players
          · rw [if_pos hmem] at hres
            left
            simpa using (congrArg Prod.fst hres).symm
          · rw [if_neg hmem] at hres
            cases hQ : pyGet Q question_id with
            | none =>
              rw [hQ] at hres
              left
              simpa using (congrArg Prod.fst hres).symm
            | some question =>
              rw [hQ] at hres
              dsimp only at hres
              cases hA : pyGet question.options answer_index with
              | none =>
                rw [hA] at hres
                left
                simpa using (congrArg Prod.fst hres).symm
              | some chosen =>
                rw [hA] at hres
                dsimp only at hres
                have hmaps := GameSession.submit_answer_maps game user_id
                  question_id chosen
                  (decide (answer_index = question.correct))
                have hflds := GameSession.submit_answer_fields game user_id
                  question_id chosen
                  (decide (answer_index = question.correct))
                cases hSub : game.submit_answer user_id question_id chosen
                    (decide (answer_index = question.correct)) with
                | mk g1 oerr =>
                  rw [hSub] at hres hmaps hflds
                  obtain ⟨hm1, hm2, hm3, hm4⟩ := hmaps
                  have hm1' : g1.players = game.players := hm1
                  have hm2' : dkeys g1.scores = dkeys game.scores := hm2
                  have hm3' : dkeys g1.answers = dkeys game.answers := hm3
                  have ha1 : g1.answered_players = game.answered_players :=
                    hflds.2.2.2.2.1
                  cases oerr with
                  | some e =>
                    dsimp only at hres
                    right
                    refine ⟨game, g1, rfl, ?_, hm1', hm2', hm3',
                      Or.inl ha1⟩
                    simpa using (congrArg Prod.fst hres).symm
                  | none =>
                    dsimp only at hres
                    have hans : (dlookup user_id game.answers).isSome
                        = true := hm4 rfl
                    set g2 : GameSession := { g1 with
                      answered_players := sadd user_id g1.answered_players }
                      with hg2
                    set g3 : GameSession :=
                      if g2.all_players_answered = true then
                        { g2 with waiting_for_next := true }
                      else g2 with hg3
                    have hg3facts : g3.players = g1.players ∧
                        g3.scores = g1.scores ∧ g3.answers = g1.answers ∧
                        g3.answered_players =
                          sadd user_id g1.answered_players := by
                      rw [hg3]
                      split <;> exact ⟨rfl, rfl, rfl, rfl⟩
                    have hgprops : g3.players = game.players ∧
                        dkeys g3.scores = dkeys game.scores ∧
                        dkeys g3.answers = dkeys game.answers ∧
                        g3.answered_players =
                          sadd user_id game.answered_players := by
                      refine ⟨hg3facts.1.trans hm1', ?_, ?_, ?_⟩
                      · rw [hg3facts.2.1]; exact hm2'
                      · rw [hg3facts.2.2.1]; exact hm3'
                      · rw [hg3facts.2.2.2, ha1]
                    cases hC : pyGet question.options question.correct with
                    | none =>
                      rw [hC] at hres
                      exact Or.inr ⟨game, g3, rfl,
                        by simpa [hg3] using (congrArg Prod.fst hres).symm,
                        hgprops.1, hgprops.2.1, hgprops.2.2.1,
                        Or.inr ⟨hans, hgprops.2.2.2⟩⟩
                    | some ctext =>
                      rw [hC] at hres
                      dsimp only at hres
                      cases hS : dlookup user_id g3.scores with
                      | none =>
                        rw [show dlookup user_id
                            (if g2.all_players_answered = true then
                              { g2 with waiting_for_next := true }
                            else g2).scores = none from hg3 ▸ hS] at hres
                        exact Or.inr ⟨game, g3, rfl,
                          by simpa [hg3] using (congrArg Prod.fst hres).symm,
                          hgprops.1, hgprops.2.1, hgprops.2.2.1,
                          Or.inr ⟨hans, hgprops.2.2.2⟩⟩
                      | some s0 =>
                        rw [show dlookup user_id
                            (if g2.all_players_answered = true then
                              { g2 with waiting_for_next := true }
                            else g2).scores = some s0 from hg3 ▸ hS] at hres
                        exact Or.inr ⟨game, g3, rfl,
                          by simpa [hg3] using (congrArg Prod.fst hres).symm,
                          hgprops.1, hgprops.2.1, hgprops.2.2.1,
                          Or.inr ⟨hans, hgprops.2.2.2⟩⟩

/-- State left behind by `GameManager.end_game`. -/
theorem end_game_state (gm : GameManager) (game_id : String) :
    gm.end_game game_id = gm ∨
    ∃ game, dlookup (norm game_id) gm.games = some game ∧
      gm.end_game game_id =
        { games := derase (norm game_id) gm.games,
          user_games := (dkeys game.players).foldl
            (fun m pid => derase pid m) gm.user_games,
          used_codes := serase (norm game_id) gm.used_codes } := by
  cases hl : dlookup (norm game_id) gm.games with
  | none => left; simp [GameManager.end_game, hl]
  | some game =>
    right
    exact ⟨game, rfl, by simp [GameManager.end_game, hl]⟩

/-- State left behind by the `leave_game` webapp branch. -/
theorem leave_game_state (gm : GameManager) (rid : String) (u : Int) :
    (gm.leave_game rid u).1 = gm ∨
    ∃ gid game,
      gm.games.find? (fun p => (dlookup u p.2.players).isSome)
        = some (gid, game) ∧
      (gm.leave_game rid u).1 =
        (let g1 : GameSession := { game with
            players := derase u game.players,
            scores := derase u game.scores,
            answers := derase u game.answers,
            answered_players := serase u game.answered_players }
         let gm1 : GameManager := { gm with
            games := dinsert gid g1 gm.games,
            user_games := derase u gm.user_games }
         if (dkeys g1.players).length = 0 then gm1.end_game (norm rid)
         else gm1) := by
  by_cases hu : (dlookup u gm.user_games).isSome = true
  · cases hfind : gm.games.find? (fun p => (dlookup u p.2.players).isSome)
        with
    | none => left; simp [GameManager.leave_game, hu, hfind]
    | some pr =>
      obtain ⟨gid, game⟩ := pr
      right
      exact ⟨gid, game, rfl,
        by simp [GameManager.leave_game, hu, hfind]⟩
  · left; simp [GameManager.leave_game, hu]

theorem dlookup_mem {κ β : Type} [DecidableEq κ] {k : κ} {v : β}
    {l : List (κ × β)} (h : dlookup k l = some v) : (k, v) ∈ l := by
  induction l with
  | nil => simp [dlookup] at h
  | cons p rest ih =>
    by_cases hp : p.1 = k
    · simp only [dlookup, if_pos hp] at h
      have hv : p.2 = v := Option.some.inj h
      have hpe : p = (k, v) := by
        calc p = (p.1, p.2) := rfl
          _ = (k, v) := by rw [hp, hv]
      rw [← hpe]
      exact List.mem_cons_self _ _
    · simp only [dlookup, if_neg hp] at h
      exact List.mem_cons_of_mem _ (ih h)

theorem mem_dinsert {κ β : Type} [DecidableEq κ] {q : κ × β} (k : κ)
    (v : β) (l : List (κ × β)) (h : q ∈ dinsert k v l) :
    q = (k, v) ∨ q ∈ l := by
  induction l with
  | nil => simpa [dinsert] using h
  | cons p rest ih =>
    by_cases hp : p.1 = k
    · simp only [dinsert, if_pos hp, List.mem_cons] at h
      rcases h with h | h
      · exact Or.inl h
      · exact Or.inr (List.mem_cons_of_mem _ h)
    · simp only [dinsert, if_neg hp, List.mem_cons] at h
      rcases h with h | h
      · exact Or.inr (h ▸ List.mem_cons_self _ _)
      · rcases ih h with h' | h'
        · exact Or.inl h'
        · exact Or.inr (List.mem_cons_of_mem _ h')

theorem mem_derase {κ β : Type} [DecidableEq κ] {q : κ × β} (k : κ)
    (l : List (κ × β)) (h : q ∈ derase k l) : q ∈ l :=
  List.mem_of_mem_filter h

/-- Spec invariant: every stored session's roster is within the configured
capacity. -/
def RosterBound (gm : GameManager) : Prop :=
  ∀ p ∈ gm.games, (dkeys p.2.players).length ≤ MAX_PLAYERS

/-- `add_player` keeps the roster within capacity: it only adds below the
`MAX_PLAYERS` threshold. -/
theorem add_player_roster_le (s : GameSession) (u : Int) (n : String)
    (h : (dkeys s.players).length ≤ MAX_PLAYERS) :
    (dkeys ((s.add_player u n).1).players).length ≤ MAX_PLAYERS := by
  unfold GameSession.add_player
  split
  · rename_i hc
    obtain ⟨habs, hlt⟩ := hc
    dsimp only
    have hnone : dlookup u s.players = none := by
      cases hl : dlookup u s.players
      · rfl
      · rw [hl] at habs; simp at habs
    rw [length_dkeys, length_dinsert_of_none u _ s.players hnone]
    rw [length_dkeys] at hlt
    omega
  · exact h

/-! Concrete scenarios used as witnesses and counterexamples. -/

/-- A one-question bank: two options, correct index 0. -/
def exQ : List Question := [⟨["a", "b"], 0⟩]

/-- The empty registry. -/
def exEmpty : GameManager := ⟨[], [], []⟩

/-- User 1 ("alice") creates a game with fresh code "AAAAAA". -/
def exCreated : GameManager := (exEmpty.create_game "AAAAAA" 1 "alice" 0).1

/-- User 2 ("bob") joins "AAAAAA". -/
def exJoined : GameManager := (exCreated.join_game "AAAAAA" 2 "bob").1

/-- The creator starts "AAAAAA". -/
def exStarted : GameManager := (exJoined.start_game "AAAAAA" 1).1

/-- User 1 answers question 0 of "AAAAAA" correctly. -/
def exAnswered : GameManager :=
  (GameManager.submit_answer exQ exStarted "AAAAAA" 1 0 0).1

/-- "AAAAAA" advances past its single question and finishes. -/
def exFinished : GameManager :=
  (GameManager.next_question exQ exStarted "AAAAAA").1

/-- A second lobby "BBBBBB", created by user 2 alongside "AAAAAA". -/
def exTwoLobbies : GameManager := (exCreated.create_game "BBBBBB" 2 "bob" 0).1

/-- C1 counterexample: on a session whose phase is not ACTIVE — here a
FINISHED one (`started = true`, `finished = true`) — a submission carrying
a stale question index is answered with the StaleQuestion failure
("Wrong question"), not the NotStarted failure the claim requires for
every non-ACTIVE phase. -/
theorem finished_session_stale_submit_not_notstarted :
    (dlookup "AAAAAA" exFinished.games).map
        (fun g => (g.started, g.finished)) = some (true, true) ∧
    GameManager.submit_answer exQ exFinished "AAAAAA" 1 0 0
      = (exFinished, .ok (.fail "Wrong question")) := by
  constructor
  · rfl
  · decide

/-- C1 (amended): the failure checks of submit-answer run in this order —
game not started (LOBBY) → NotStarted; supplied index ≠ current index →
StaleQuestion; submitter already in the answered-set → DuplicateAnswer —
and each failure returns with the registry (hence the session's scores,
answers and answered-set) completely unchanged.  A session that has
finished still counts as started, so a FINISHED session passes the first
check.  A participant whose submission succeeded gets DuplicateAnswer on
an immediate second attempt at the same question index, again with no
state change, so the score changes at most once. -/
theorem submit_answer_failure_order (Q : List Question) (gm : GameManager)
    (game_id : String) (user_id question_id answer_index : Int)
    (game : GameSession)
    (hg : dlookup (norm game_id) gm.games = some game) :
    (game.started = false →
      GameManager.submit_answer Q gm game_id user_id question_id
        answer_index = (gm, .ok (.fail "Game not started"))) ∧
    (game.started = true → question_id ≠ (game.current_question : Int) →
      GameManager.submit_answer Q gm game_id user_id question_id
        answer_index = (gm, .ok (.fail "Wrong question"))) ∧
    (game.started = true → question_id = (game.current_question : Int) →
      user_id ∈ game.answered_players →
      GameManager.submit_answer Q gm game_id user_id question_id
        answer_index = (gm, .ok (.fail "Already answered"))) ∧
    (∀ (gm' : GameManager) (c aa : Bool) (ca : String) (sc ac tp : Nat),
      GameManager.submit_answer Q gm game_id user_id question_id
        answer_index = (gm', .ok (.success c ca sc aa ac tp)) →
      GameManager.submit_answer Q gm' game_id user_id question_id
        answer_index = (gm', .ok (.fail "Already answered"))) := by
  refine ⟨?_, ?_, ?_, ?_⟩
  · intro hs
    exact submit_answer_not_started Q gm game_id user_id question_id
      answer_index game hg hs
  · intro hs hq
    exact submit_answer_wrong_question Q gm game_id user_id question_id
      answer_index game hg hs hq
  · intro hs hq hmem
    exact submit_answer_already_answered Q gm game_id user_id question_id
      answer_index game hg hs hq hmem
  · intro gm' c aa ca sc ac tp h
    obtain ⟨hs, hq, hmem, g3, hgm', hg3s, hg3c, hg3p, hg3a⟩ :=
      submit_answer_success_inv Q gm game_id user_id question_id
        answer_index game hg gm' c aa ca sc ac tp h
    have hg' : dlookup (norm game_id) gm'.games = some g3 := by
      rw [hgm']
      exact dlookup_dinsert_self (norm game_id) g3 gm.games
    exact submit_answer_already_answered Q gm' game_id user_id question_id
      answer_index g3 hg' hg3s (by rw [hq, hg3c]) hg3a

/-- C1 witness: the amended theorem applied to the concrete lobby
"AAAAAA" before it is started. -/
theorem submit_answer_failure_order_witness :
    GameManager.submit_answer exQ exJoined "AAAAAA" 1 0 0
      = (exJoined, .ok (.fail "Game not started")) :=
  (submit_answer_failure_order exQ exJoined "AAAAAA" 1 0 0
    ((dlookup "AAAAAA" exJoined.games).get (by decide)) (by decide)).1
    (by decide)

/-- A session at the configured capacity: "AAAAAA" with six players. -/
def exFull : GameManager :=
  (((((exCreated.join_game "AAAAAA" 2 "b").1.join_game
    "AAAAAA" 3 "c").1.join_game "AAAAAA" 4 "d").1.join_game
    "AAAAAA" 5 "e").1.join_game "AAAAAA" 6 "f").1

/-- C4 counterexample: with two lobbies "AAAAAA" (creator: user 1) and
"BBBBBB" (creator: user 2) live, user 1 — already a participant of
"AAAAAA" — successfully joins "BBBBBB" and thereafter appears in the
rosters of both live sessions. -/
theorem cross_session_join_not_exclusive :
    (exTwoLobbies.join_game "BBBBBB" 1 "alice").2 = true ∧
    (dlookup "AAAAAA"
        (exTwoLobbies.join_game "BBBBBB" 1 "alice").1.games).map
      (fun g => decide ((1 : Int) ∈ dkeys g.players)) = some true ∧
    (dlookup "BBBBBB"
        (exTwoLobbies.join_game "BBBBBB" 1 "alice").1.games).map
      (fun g => decide ((1 : Int) ∈ dkeys g.players)) = some true := by
  decide

/-- C4 (amended): a join by a user who is already a participant of the
target session fails and leaves the registry — rosters and reverse index
included — completely unchanged.  The registry enforces no cross-session
exclusivity: a user already in a different live session can join a second
one and then appears in both rosters (see the counterexample). -/
theorem join_rejects_existing_member (gm : GameManager) (gid : String)
    (u : Int) (n : String) (game : GameSession)
    (hg : dlookup (norm gid) gm.games = some game)
    (hmem : u ∈ dkeys game.players) :
    gm.join_game gid u n = (gm, false) := by
  have habs : (dlookup u game.players).isSome = true :=
    (dlookup_isSome_iff_mem_dkeys u game.players).mpr hmem
  by_cases hcond : game.started = false ∧
      game.get_player_count < MAX_PLAYERS
  · have hadd : game.add_player u n = (game, false) := by
      unfold GameSession.add_player
      rw [if_neg]
      rintro ⟨h1, h2⟩
      rw [habs] at h1
      exact absurd h1 (by simp)
    simp [GameManager.join_game, hg, hcond, hadd]
  · simp [GameManager.join_game, hg, hcond]

/-- C4 witness: the creator of the fresh lobby "AAAAAA" cannot join it
again. -/
theorem join_rejects_existing_member_witness :
    exCreated.join_game "AAAAAA" 1 "alice" = (exCreated, false) :=
  join_rejects_existing_member exCreated "AAAAAA" 1 "alice"
    ((dlookup "AAAAAA" exCreated.games).get (by decide))
    (by decide) (by decide)

/-- The roster produced by `GameSession.__init__` holds exactly the
creator. -/
theorem init_roster_length (id : String) (c : Int) (n : String) (t : Nat) :
    (dkeys (GameSession.init id c n t).players).length = 1 := by
  simp [GameSession.init, GameSession.add_player, dlookup, dkeys,
    MAX_PLAYERS, dinsert]

theorem RosterBound_create (gm : GameManager) (code : String) (cid : Int)
    (cn : String) (t : Nat) (h : RosterBound gm) :
    RosterBound (gm.create_game code cid cn t).1 := by
  intro p hp
  have hg : (gm.create_game code cid cn t).1.games
      = dinsert code (GameSession.init code cid cn t) gm.games := rfl
  rw [hg] at hp
  rcases mem_dinsert _ _ _ hp with rfl | hp'
  · show (dkeys (GameSession.init code cid cn t).players).length
      ≤ MAX_PLAYERS
    rw [init_roster_length]
    decide
  · exact h p hp'

theorem RosterBound_join (gm : GameManager) (gid : String) (u : Int)
    (n : String) (h : RosterBound gm) :
    RosterBound (gm.join_game gid u n).1 := by
  rcases join_game_state gm gid u n with heq | ⟨game, g1, hlook, hadd, heq⟩
  · rw [heq]; exact h
  · rw [heq]
    intro p hp
    have hp2 : p ∈ dinsert (norm gid) g1 gm.games := hp
    rcases mem_dinsert _ _ _ hp2 with rfl | hp'
    · show (dkeys g1.players).length ≤ MAX_PLAYERS
      have hg1 : g1 = (game.add_player u n).1 := by rw [hadd]
      rw [hg1]
      exact add_player_roster_le game u n (h _ (dlookup_mem hlook))
    · exact h p hp'

theorem RosterBound_submit (Q : List Question) (gm : GameManager)
    (gid : String) (u qid ai : Int) (h : RosterBound gm) :
    RosterBound (GameManager.submit_answer Q gm gid u qid ai).1 := by
  rcases submit_answer_state Q gm gid u qid ai with heq |
    ⟨game, g', hlook, heq, hpl, _, _, _⟩
  · rw [heq]; exact h
  · rw [heq]
    intro p hp
    have hp2 : p ∈ dinsert (norm gid) g' gm.games := hp
    rcases mem_dinsert _ _ _ hp2 with rfl | hp'
    · show (dkeys g'.players).length ≤ MAX_PLAYERS
      rw [hpl]
      exact h _ (dlookup_mem hlook)
    · exact h p hp'

theorem RosterBound_next (Q : List Question) (gm : GameManager)
    (gid : String) (h : RosterBound gm) :
    RosterBound (GameManager.next_question Q gm gid).1 := by
  rcases next_question_state Q gm gid with heq | ⟨game, hlook, hs, heq⟩
  · rw [heq]; exact h
  · rw [heq]
    intro p hp
    rcases mem_dinsert _ _ _ hp with rfl | hp'
    · show (dkeys (let g2 := ({ game with
          current_question :=
            game.current_question + 1 }).reset_for_next_question
        if Q.length ≤ g2.current_question then { g2 with finished := true }
        else g2).players).length ≤ MAX_PLAYERS
      have hpl : (let g2 := ({ game with
          current_question :=
            game.current_question + 1 }).reset_for_next_question
        if Q.length ≤ g2.current_question then { g2 with finished := true }
        else g2).players = game.players := by
        dsimp only [GameSession.reset_for_next_question]
        split <;> rfl
      rw [hpl]
      exact h _ (dlookup_mem hlook)
    · exact h p hp'

theorem RosterBound_start (gm : GameManager) (gid : String) (u : Int)
    (h : RosterBound gm) : RosterBound (gm.start_game gid u).1 := by
  rcases start_game_state gm gid u with heq | ⟨game, hlook, heq⟩
  · rw [heq]; exact h
  · rw [heq]
    intro p hp
    have hp2 : p ∈ dinsert gid { game with started := true } gm.games := hp
    rcases mem_dinsert _ _ _ hp2 with rfl | hp'
    · exact h (gid, game) (dlookup_mem hlook)
    · exact h p hp'

theorem RosterBound_end (gm : GameManager) (gid : String)
    (h : RosterBound gm) : RosterBound (gm.end_game gid) := by
  rcases end_game_state gm gid with heq | ⟨game, hlook, heq⟩
  · rw [heq]; exact h
  · rw [heq]
    intro p hp
    exact h p (mem_derase _ _ hp)

theorem RosterBound_leave (gm : GameManager) (rid : String) (u : Int)
    (h : RosterBound gm) : RosterBound (gm.leave_game rid u).1 := by
  rcases leave_game_state gm rid u with heq | ⟨gid, game, hfind, heq⟩
  · rw [heq]; exact h
  · rw [heq]
    have hmem : (gid, game) ∈ gm.games := List.mem_of_find?_eq_some hfind
    have hb1 : RosterBound { gm with
        games := dinsert gid { game with
          players := derase u game.players,
          scores := derase u game.scores,
          answers := derase u game.answers,
          answered_players := serase u game.answered_players } gm.games,
        user_games := derase u gm.user_games } := by
      intro p hp
      have hp2 : p ∈ dinsert gid { game with
          players := derase u game.players,
          scores := derase u game.scores,
          answers := derase u game.answers,
          answered_players := serase u game.answered_players }
          gm.games := hp
      rcases mem_dinsert _ _ _ hp2 with rfl | hp'
      · show (dkeys (derase u game.players)).length ≤ MAX_PLAYERS
        calc (dkeys (derase u game.players)).length
            = (derase u game.players).length := length_dkeys _
          _ ≤ game.players.length := List.length_filter_le _ _
          _ = (dkeys game.players).length := (length_dkeys _).symm
          _ ≤ MAX_PLAYERS := h _ hmem
      · exact h p hp'
    dsimp only
    split
    · exact RosterBound_end _ _ hb1
    · exact hb1

/-- A join aimed at a session whose roster is at capacity fails and leaves
the registry unchanged. -/
theorem join_full_fails (gm : GameManager) (gid : String) (u : Int)
    (n : String) (game : GameSession)
    (hg : dlookup (norm gid) gm.games = some game)
    (hfull : (dkeys game.players).length = MAX_PLAYERS) :
    gm.join_game gid u n = (gm, false) := by
  have hcond : ¬(game.started = false ∧
      game.get_player_count < MAX_PLAYERS) := by
    rintro ⟨-, hlt⟩
    rw [GameSession.get_player_count, hfull] at hlt
    omega
  simp [GameManager.join_game, hg, hcond]

/-- C5 (confirmed): rosters never exceed the configured maximum of 6 —
a fresh session holds exactly its creator, `add_player` preserves the
bound, and every registry operation preserves the bound for every stored
session — and a join aimed at a session whose roster is at the maximum
fails, leaving the registry (rosters, scores and answer ledgers included)
completely unchanged. -/
theorem roster_capacity :
    (∀ (id : String) (c : Int) (n : String) (t : Nat),
      (dkeys (GameSession.init id c n t).players).length = 1) ∧
    (∀ (s : GameSession) (u : Int) (n : String),
      (dkeys s.players).length ≤ MAX_PLAYERS →
      (dkeys ((s.add_player u n).1).players).length ≤ MAX_PLAYERS) ∧
    (∀ (gm : GameManager) (code : String) (cid : Int) (cn : String)
      (t : Nat), RosterBound gm →
      RosterBound (gm.create_game code cid cn t).1) ∧
    (∀ (gm : GameManager) (gid : String) (u : Int) (n : String),
      RosterBound gm → RosterBound (gm.join_game gid u n).1) ∧
    (∀ (Q : List Question) (gm : GameManager) (gid : String)
      (u qid ai : Int), RosterBound gm →
      RosterBound (GameManager.submit_answer Q gm gid u qid ai).1) ∧
    (∀ (Q : List Question) (gm : GameManager) (gid : String),
      RosterBound gm → RosterBound (GameManager.next_question Q gm gid).1) ∧
    (∀ (gm : GameManager) (gid : String) (u : Int),
      RosterBound gm → RosterBound (gm.start_game gid u).1) ∧
    (∀ (gm : GameManager) (gid : String),
      RosterBound gm → RosterBound (gm.end_game gid)) ∧
    (∀ (gm : GameManager) (rid : String) (u : Int),
      RosterBound gm → RosterBound (gm.leave_game rid u).1) ∧
    (∀ (gm : GameManager) (gid : String) (u : Int) (n : String)
      (game : GameSession), dlookup (norm gid) gm.games = some game →
      (dkeys game.players).length = MAX_PLAYERS →
      gm.join_game gid u n = (gm, false)) :=
  ⟨init_roster_length, add_player_roster_le, RosterBound_create,
    RosterBound_join, RosterBound_submit, RosterBound_next,
    RosterBound_start, RosterBound_end, RosterBound_leave,
    join_full_fails⟩

/-- C5 witness: the seventh join aimed at the six-player session "AAAAAA"
fails and changes nothing. -/
theorem roster_capacity_witness :
    exFull.join_game "AAAAAA" 7 "g" = (exFull, false) :=
  roster_capacity.2.2.2.2.2.2.2.2.2 exFull "AAAAAA" 7 "g"
    ((dlookup "AAAAAA" exFull.games).get (by decide))
    (by decide) (by decide)

theorem pyGet_ofNat {α : Type} (l : List α) (m : Nat) :
    pyGet l (m : Int) = l.get? m := by
  simp [pyGet]

/-- Full behaviour of `next_question` on a started session whose
`finished` flag is consistent with its index (true only past the end of
the bank): the index advances by one, the answered-set and barrier reset,
and the stored session is finished exactly when the new index has reached
the end of the question list. -/
theorem next_question_spec (Q : List Question) (gm : GameManager)
    (game_id : String) (game : GameSession)
    (hg : dlookup (norm game_id) gm.games = some game)
    (hs : game.started = true)
    (hreach : game.finished = true → Q.length ≤ game.current_question) :
    ∃ g', GameManager.next_question Q gm game_id =
        (GameManager.setGame gm (norm game_id) g', true) ∧
      g'.current_question = game.current_question + 1 ∧
      g'.answered_players = [] ∧
      g'.waiting_for_next = false ∧
      g'.players = game.players ∧ g'.scores = game.scores ∧
      g'.answers = game.answers ∧ g'.started = true ∧
      (g'.finished = true ↔ Q.length ≤ game.current_question + 1) := by
  by_cases hfin : Q.length ≤ game.current_question + 1
  · refine ⟨{ game with
      current_question := game.current_question + 1,
      answered_players := [],
      waiting_for_next := false,
      finished := true }, ?_, rfl, rfl, rfl, rfl, rfl, rfl, hs,
      by simpa using hfin⟩
    simp [GameManager.next_question, hg, hs,
      GameSession.reset_for_next_question, hfin]
  · have hnf : game.finished = false := by
      cases hf : game.finished
      · rfl
      · exact absurd (le_trans (hreach hf) (Nat.le_succ _)) hfin
    refine ⟨{ game with
      current_question := game.current_question + 1,
      answered_players := [],
      waiting_for_next := false }, ?_, rfl, rfl,
      rfl, rfl, rfl, rfl, hs, by simp [hnf, hfin]⟩
    simp [GameManager.next_question, hg, hs,
      GameSession.reset_for_next_question, hfin]

/-- C7 (confirmed): on a started session, advance increments the current
question index by exactly one, clears the answered-set and re-arms
(clears) the barrier — so no participant is in the answered-set of the
new question — and the stored phase is FINISHED exactly when the new
index has reached the length of the question list (the hypothesis ties
the `finished` flag to the index, which holds of every reachable
session). -/
theorem advance_increments_and_finishes (Q : List Question)
    (gm : GameManager) (game_id : String) (game : GameSession)
    (hg : dlookup (norm game_id) gm.games = some game)
    (hs : game.started = true)
    (hreach : game.finished = true → Q.length ≤ game.current_question) :
    ∃ g', GameManager.next_question Q gm game_id =
        (GameManager.setGame gm (norm game_id) g', true) ∧
      g'.current_question = game.current_question + 1 ∧
      g'.answered_players = [] ∧
      g'.waiting_for_next = false ∧
      g'.players = game.players ∧ g'.scores = game.scores ∧
      g'.answers = game.answers ∧ g'.started = true ∧
      (g'.finished = true ↔ Q.length ≤ game.current_question + 1) :=
  next_question_spec Q gm game_id game hg hs hreach

/-- C7 witness: advancing the freshly started one-question session
"AAAAAA" moves its index to 1, empties the answered-set, clears the
barrier and finishes the game. -/
theorem advance_increments_and_finishes_witness :
    ∃ g', GameManager.next_question exQ exStarted "AAAAAA" =
        (GameManager.setGame exStarted (norm "AAAAAA") g', true) ∧
      g'.current_question = 0 + 1 ∧
      g'.answered_players = [] ∧
      g'.waiting_for_next = false ∧
      g'.players = ((dlookup "AAAAAA" exStarted.games).get
        (by decide)).players ∧
      g'.scores = ((dlookup "AAAAAA" exStarted.games).get
        (by decide)).scores ∧
      g'.answers = ((dlookup "AAAAAA" exStarted.games).get
        (by decide)).answers ∧ g'.started = true ∧
      (g'.finished = true ↔ exQ.length ≤ 0 + 1) :=
  advance_increments_and_finishes exQ exStarted "AAAAAA"
    ((dlookup "AAAAAA" exStarted.games).get (by decide))
    (by decide) (by decide) (by decide)

/-- C8 counterexample: session "AAAAAA" is FINISHED (started and finished
both set, index 1 at the end of the one-question bank), yet advance
reports success and increments the index to 2 — the session state
changes, where the claim requires every advance on a FINISHED session to
fail and change nothing. -/
theorem finished_session_advance_succeeds :
    (dlookup "AAAAAA" exFinished.games).map
      (fun g => (g.started, g.finished, g.current_question))
      = some (true, true, 1) ∧
    (GameManager.next_question exQ exFinished "AAAAAA").2 = true ∧
    (dlookup "AAAAAA"
        (GameManager.next_question exQ exFinished "AAAAAA").1.games).map
      (fun g => g.current_question) = some 2 := by
  decide

/-- C8 (amended): once a session is FINISHED — `started` and `finished`
both set, index at or past the end of the bank — joins fail with the
registry unchanged; submissions naming a non-current question index fail
with the registry unchanged; a submission naming the current index of a
not-yet-answering participant raises IndexError before mutating anything;
but advance still reports success and keeps incrementing the index (the
session stays FINISHED), and start leaves the stored state unchanged
while still reporting success when the requester is the creator of a
session with at least two participants. -/
theorem finished_session_behaviour (Q : List Question) (gm : GameManager)
    (code : String) (u qid ai : Int) (game : GameSession)
    (hn : norm code = code)
    (hg : dlookup code gm.games = some game)
    (hs : game.started = true) (hf : game.finished = true)
    (hreach : Q.length ≤ game.current_question) :
    gm.join_game code u "x" = (gm, false) ∧
    (qid ≠ (game.current_question : Int) →
      GameManager.submit_answer Q gm code u qid ai
        = (gm, .ok (.fail "Wrong question"))) ∧
    (qid = (game.current_question : Int) →
      u ∉ game.answered_players →
      GameManager.submit_answer Q gm code u qid ai
        = (gm, .error "IndexError")) ∧
    (∃ g', GameManager.next_question Q gm code =
        (GameManager.setGame gm code g', true) ∧
      g'.current_question = game.current_question + 1 ∧
      g'.finished = true) ∧
    (gm.start_game code u).1 = gm ∧
    (game.creator_id = u → 2 ≤ (dkeys game.players).length →
      gm.start_game code u = (gm, true)) := by
  have hg' : dlookup (norm code) gm.games = some game := by rw [hn]; exact hg
  refine ⟨?_, ?_, ?_, ?_, ?_, ?_⟩
  · have hcond : ¬(game.started = false ∧
        game.get_player_count < MAX_PLAYERS) := by
      rintro ⟨h1, -⟩
      rw [hs] at h1
      exact absurd h1 (by simp)
    simp [GameManager.join_game, hg', hcond]
  · intro hq
    exact submit_answer_wrong_question Q gm code u qid ai game hg' hs hq
  · intro hq hmem
    have hQ : pyGet Q ((game.current_question : Nat) : Int) = none := by
      rw [pyGet_ofNat]
      exact List.get?_eq_none.mpr hreach
    simp [GameManager.submit_answer, hg', hs, hq, hmem, hQ]
  · obtain ⟨g', hnq, hc, -, -, -, -, -, -, hfin⟩ :=
      next_question_spec Q gm code game hg' hs (fun _ => hreach)
    rw [hn] at hnq
    exact ⟨g', hnq, hc, hfin.mpr (le_trans hreach (Nat.le_succ _))⟩
  · rcases start_game_state gm code u with heq | ⟨game2, hlook2, heq⟩
    · exact heq
    · rw [heq]
      have hsame : game2 = game := by
        rw [hg] at hlook2
        exact (Option.some.inj hlook2).symm
      subst hsame
      have hgame : ({ game2 with started := true } : GameSession)
          = game2 := by
        obtain ⟨a, b, c, d, e, f, g, st, fin, i, j, k⟩ := game2
        cases hs
        rfl
      rw [GameManager.setGame, hgame, dinsert_eq_self hlook2]
  · intro hcr hn2
    have hgame : ({ game with started := true } : GameSession)
        = game := by
      obtain ⟨a, b, c, d, e, f, g, st, fin, i, j, k⟩ := game
      cases hs
      rfl
    have hlt : ¬((dkeys game.players).length < 2) := by omega
    simp only [GameManager.start_game, hg]
    rw [if_pos hcr, if_neg hlt, GameManager.setGame, hgame,
      dinsert_eq_self hg]

/-- C8 witness: user 1 — the creator of the finished one-question
two-player session "AAAAAA" — gets a join rejection, a StaleQuestion
failure, a successful advance, and a successful (no-op) start. -/
theorem finished_session_behaviour_witness :
    exFinished.join_game "AAAAAA" 1 "x" = (exFinished, false) ∧
    GameManager.submit_answer exQ exFinished "AAAAAA" 1 3 0
      = (exFinished, .ok (.fail "Wrong question")) ∧
    (∃ g', GameManager.next_question exQ exFinished "AAAAAA" =
        (GameManager.setGame exFinished "AAAAAA" g', true) ∧
      g'.current_question = 1 + 1 ∧ g'.finished = true) ∧
    (exFinished.start_game "AAAAAA" 1).1 = exFinished ∧
    exFinished.start_game "AAAAAA" 1 = (exFinished, true) := by
  have h := finished_session_behaviour exQ exFinished "AAAAAA" 1 3 0
    ((dlookup "AAAAAA" exFinished.games).get (by decide))
    (by decide) (by decide) (by decide) (by decide) (by decide)
  exact ⟨h.1, h.2.1 (by decide), h.2.2.2.1, h.2.2.2.2.1,
    h.2.2.2.2.2 (by decide) (by decide)⟩

theorem length_eq_iff_all_mem {α : Type} [DecidableEq α] {a r : List α}
    (hnd : a.Nodup) (hnr : r.Nodup) (hsub : a ⊆ r) :
    a.length = r.length ↔ ∀ x ∈ r, x ∈ a := by
  constructor
  · intro hlen x hx
    have hsp : List.Subperm a r := List.subperm_of_subset hnd hsub
    have hperm : a.Perm r := hsp.perm_of_length_le (le_of_eq hlen.symm)
    exact hperm.mem_iff.mpr hx
  · intro hsup
    have h1 : List.Subperm a r := List.subperm_of_subset hnd hsub
    have h2 : List.Subperm r a := List.subperm_of_subset hnr
      (fun x hx => hsup x hx)
    exact le_antisymm h1.length_le h2.length_le

/-- C2 counterexample: user 1 is a roster member of the ACTIVE session
"AAAAAA" and has not yet answered its current question, yet submitting
the out-of-range option index 5 (the question has two options) raises
IndexError — no answer record is appended, no score changes, no result
is returned — where the claim promises an appended record and a
structured result for every such call. -/
theorem submit_out_of_range_choice_raises :
    (dlookup "AAAAAA" exStarted.games).map
      (fun g => (g.started, g.finished,
        decide ((1 : Int) ∈ dkeys g.players),
        decide ((1 : Int) ∈ g.answered_players)))
      = some (true, false, true, false) ∧
    GameManager.submit_answer exQ exStarted "AAAAAA" 1 0 5
      = (exStarted, .error "IndexError") := by
  decide

/-- C2 (amended): every submit-answer call by a roster member on the
current question of an ACTIVE session who has not yet answered it, whose
chosen option index is valid for the question (and whose question-bank
entry is well formed), appends one answer record to exactly that
participant's ledger, raises that participant's score by exactly 1 when
the chosen index equals the question's correct index and leaves it
unchanged otherwise, appends the participant to the answered-set, signals
the barrier exactly when the answered-set then counts the full roster,
and returns the correctness flag, the canonical correct choice, the
updated score, the all-answered flag and the answered/total counts. -/
theorem submit_answer_success_spec (Q : List Question) (gm : GameManager)
    (gid : String) (u qid ai : Int) (game : GameSession)
    (question : Question) (chosen ctext : String)
    (ledger : List AnswerRec) (sc0 : Nat)
    (hg : dlookup (norm gid) gm.games = some game)
    (hs : game.started = true) (hf : game.finished = false)
    (hq : qid = (game.current_question : Int))
    (hmem : u ∈ dkeys game.players)
    (hans : dlookup u game.answers = some ledger)
    (hsc : dlookup u game.scores = some sc0)
    (hna : u ∉ game.answered_players)
    (hQ : pyGet Q ((game.current_question : Nat) : Int) = some question)
    (hA : pyGet question.options ai = some chosen)
    (hC : pyGet question.options question.correct = some ctext)
    (hndA : game.answered_players.Nodup)
    (hndP : (dkeys game.players).Nodup)
    (hsub : ∀ x ∈ game.answered_players, x ∈ dkeys game.players) :
    ∃ g3 : GameSession,
      GameManager.submit_answer Q gm gid u qid ai =
        (GameManager.setGame gm (norm gid) g3,
         .ok (.success (decide (ai = question.correct)) ctext
           (sc0 + if ai = question.correct then 1 else 0)
           (decide ((game.answered_players ++ [u]).length
             = (dkeys game.players).length))
           (game.answered_players ++ [u]).length
           (dkeys game.players).length)) ∧
      dlookup u g3.answers = some (ledger ++
        [⟨(game.current_question : Int), chosen,
          decide (ai = question.correct)⟩]) ∧
      (∀ v, v ≠ u → dlookup v g3.answers = dlookup v game.answers) ∧
      dlookup u g3.scores =
        some (sc0 + if ai = question.correct then 1 else 0) ∧
      (∀ v, v ≠ u → dlookup v g3.scores = dlookup v game.scores) ∧
      g3.answered_players = game.answered_players ++ [u] ∧
      g3.players = game.players ∧ g3.started = true ∧
      g3.finished = false ∧
      g3.current_question = game.current_question ∧
      g3.waiting_for_next = (game.waiting_for_next ||
        decide ((game.answered_players ++ [u]).length
          = (dkeys game.players).length)) ∧
      (decide ((game.answered_players ++ [u]).length
          = (dkeys game.players).length) = true ↔
        ∀ x ∈ dkeys game.players, x ∈ game.answered_players ++ [u]) := by
  subst hq
  have hiff : (game.answered_players ++ [u]).length
      = (dkeys game.players).length ↔
      ∀ x ∈ dkeys game.players, x ∈ game.answered_players ++ [u] := by
    apply length_eq_iff_all_mem ?_ hndP ?_
    · rw [List.nodup_append]
      exact ⟨hndA, List.nodup_singleton u,
        fun x hx hx' => hna ((List.mem_singleton.mp hx') ▸ hx)⟩
    · intro x hx
      rcases List.mem_append.mp hx with hx' | hx'
      · exact hsub x hx'
      · exact (List.mem_singleton.mp hx') ▸ hmem
  by_cases hcor : ai = question.correct
  · subst hcor
    rw [hA] at hC
    have hce : chosen = ctext := Option.some.inj hC
    subst hce
    have hsession := GameSession.submit_answer_success game u
      ((game.current_question : Nat) : Int) chosen true ledger sc0 hans hsc
    by_cases hall : (game.answered_players ++ [u]).length
        = (dkeys game.players).length
    · refine ⟨{ game with
        answers := dinsert u (ledger ++
          [⟨(game.current_question : Int), chosen, true⟩]) game.answers,
        scores := dinsert u (sc0 + 1) game.scores,
        answered_players := game.answered_players ++ [u],
        waiting_for_next := true }, ?_, ?_, ?_, ?_, ?_, rfl, rfl, hs, hf,
        rfl, by simp [hall], by simpa using hiff⟩
      · simp only [GameManager.submit_answer, hg, hs, hna, hQ, hA,
          decide_eq_true_eq]
        simp only [decide_True, hsession, GameSession.all_players_answered,
          sadd_of_not_mem hna]
        have hall2 := hall
        simp only [List.length_append, List.length_singleton] at hall2
        simp [hs, hall2, dlookup_dinsert_self, GameManager.setGame]
      · simp [dlookup_dinsert_self]
      · intro v hv
        simp [dlookup_dinsert_ne _ _ hv]
      · simp [dlookup_dinsert_self]
      · intro v hv
        simp [dlookup_dinsert_ne _ _ hv]
    · refine ⟨{ game with
        answers := dinsert u (ledger ++
          [⟨(game.current_question : Int), chosen, true⟩]) game.answers,
        scores := dinsert u (sc0 + 1) game.scores,
        answered_players := game.answered_players ++ [u] }, ?_, ?_, ?_,
        ?_, ?_, rfl, rfl, hs, hf, rfl,
        by
          have hall2 : ¬(game.answered_players.length + 1
              = (dkeys game.players).length) := by simpa using hall
          simp [hall2],
        by simpa using hiff⟩
      · simp only [GameManager.submit_answer, hg, hs, hna, hQ, hA,
          decide_eq_true_eq]
        simp only [decide_True, hsession, GameSession.all_players_answered,
          sadd_of_not_mem hna]
        have hall2 := hall
        simp only [List.length_append, List.length_singleton] at hall2
        simp [hs, hall2, dlookup_dinsert_self, GameManager.setGame]
      · simp [dlookup_dinsert_self]
      · intro v hv
        simp [dlookup_dinsert_ne _ _ hv]
      · simp [dlookup_dinsert_self]
      · intro v hv
        simp [dlookup_dinsert_ne _ _ hv]
  · have hsession := GameSession.submit_answer_success game u
      ((game.current_question : Nat) : Int) chosen false ledger sc0 hans hsc
    by_cases hall : (game.answered_players ++ [u]).length
        = (dkeys game.players).length
    · refine ⟨{ game with
        answers := dinsert u (ledger ++
          [⟨(game.current_question : Int), chosen, false⟩]) game.answers,
        answered_players := game.answered_players ++ [u],
        waiting_for_next := true }, ?_, ?_, ?_, ?_, ?_, rfl, rfl, hs, hf,
        rfl, by simp [hall], by simpa using hiff⟩
      · simp only [GameManager.submit_answer, hg, hs, hna, hQ, hA, hC]
        simp only [hcor, decide_False, hsession,
          GameSession.all_players_answered, sadd_of_not_mem hna]
        have hall2 := hall
        simp only [List.length_append, List.length_singleton] at hall2
        simp [hs, hall2, hcor, hsc, GameManager.setGame]
      · simp [hcor, dlookup_dinsert_self]
      · intro v hv
        simp [dlookup_dinsert_ne _ _ hv]
      · simp [hcor, hsc]
      · intro v hv
        simp
    · refine ⟨{ game with
        answers := dinsert u (ledger ++
          [⟨(game.current_question : Int), chosen, false⟩]) game.answers,
        answered_players := game.answered_players ++ [u] }, ?_, ?_, ?_,
        ?_, ?_, rfl, rfl, hs, hf, rfl,
        by
          have hall2 : ¬(game.answered_players.length + 1
              = (dkeys game.players).length) := by simpa using hall
          simp [hall2],
        by simpa using hiff⟩
      · simp only [GameManager.submit_answer, hg, hs, hna, hQ, hA, hC]
        simp only [hcor, decide_False, hsession,
          GameSession.all_players_answered, sadd_of_not_mem hna]
        have hall2 := hall
        simp only [List.length_append, List.length_singleton] at hall2
        simp [hs, hall2, hcor, hsc, GameManager.setGame]
      · simp [hcor, dlookup_dinsert_self]
      · intro v hv
        simp [dlookup_dinsert_ne _ _ hv]
      · simp [hcor, hsc]
      · intro v hv
        simp

/-- C2 witness: user 1 answers question 0 of the freshly started
two-player session "AAAAAA" correctly with option 0. -/
theorem submit_answer_success_spec_witness :
    ∃ g3 : GameSession,
      GameManager.submit_answer exQ exStarted "AAAAAA" 1 0 0 =
        (GameManager.setGame exStarted (norm "AAAAAA") g3,
         .ok (.success true "a" 1 false 1 2)) ∧
      dlookup 1 g3.answers = some [⟨0, "a", true⟩] ∧
      (∀ v, v ≠ 1 → dlookup v g3.answers =
        dlookup v [((1 : Int), ([] : List AnswerRec)), (2, [])]) ∧
      dlookup 1 g3.scores = some 1 ∧
      (∀ v, v ≠ 1 → dlookup v g3.scores =
        dlookup v [((1 : Int), (0 : Nat)), (2, 0)]) ∧
      g3.answered_players = [1] ∧
      g3.players = [((1 : Int), ⟨"alice", false⟩), (2, ⟨"bob", false⟩)] ∧
      g3.started = true ∧ g3.finished = false ∧
      g3.current_question = 0 ∧
      g3.waiting_for_next = false ∧
      (false = true ↔ ∀ x ∈ ([1, 2] : List Int), x ∈ ([1] : List Int)) :=
  submit_answer_success_spec exQ exStarted "AAAAAA" 1 0 0
    ((dlookup "AAAAAA" exStarted.games).get (by decide))
    ⟨["a", "b"], 0⟩ "a" "a" [] 0
    (by decide) (by decide) (by decide) (by decide) (by decide)
    (by decide) (by decide) (by decide) (by decide) (by decide)
    (by decide) (by decide) (by decide) (by decide)

/-- C3 counterexample: user 99 is not in the roster of the ACTIVE session
"AAAAAA"; the submission passes every guard and raises KeyError across
the registry boundary instead of returning a structured result. -/
theorem submit_roster_absent_user_raises :
    GameManager.submit_answer exQ exStarted "AAAAAA" 99 0 0
      = (exStarted, .error "KeyError") := by
  decide

/-- C3 (amended): submit-answer returns a structured result — success or
one of the typed failures — for every input except the unguarded ones,
each of which raises an exception across the boundary instead: a question
index equal to the current index of a session whose question list is
exhausted (IndexError), an out-of-range answer index (IndexError), a user
missing from the session's ledger or score maps (KeyError), and a bank
entry whose correct index is out of range (IndexError). -/
theorem submit_answer_total_or_flagged (Q : List Question)
    (gm : GameManager) (gid : String) (u qid ai : Int) :
    ((GameManager.submit_answer Q gm gid u qid ai).2).isOk = true ∨
    ∃ game, dlookup (norm gid) gm.games = some game ∧
      (pyGet Q qid = none ∨
       ∃ question, pyGet Q qid = some question ∧
         (pyGet question.options ai = none ∨
          dlookup u game.answers = none ∨
          dlookup u game.scores = none ∨
          pyGet question.options question.correct = none)) := by
  cases hres : GameManager.submit_answer Q gm gid u qid ai with
  | mk gmR r =>
    cases hl : dlookup (norm gid) gm.games with
    | none =>
      left
      simp only [GameManager.submit_answer, hl] at hres
      have hr : r = .ok (.fail "Game not found") :=
        (congrArg Prod.snd hres).symm
      simp [hr, Except.isOk, Except.toBool]
    | some game =>
      simp only [GameManager.submit_answer, hl] at hres
      by_cases hs : game.started = false
      · rw [if_pos hs] at hres
        left
        have hr : r = .ok (.fail "Game not started") :=
          (congrArg Prod.snd hres).symm
        simp [hr, Except.isOk, Except.toBool]
      · rw [if_neg hs] at hres
        by_cases hq : qid ≠ (game.current_question : Int)
        · rw [if_pos hq] at hres
          left
          have hr : r = .ok (.fail "Wrong question") :=
            (congrArg Prod.snd hres).symm
          simp [hr, Except.isOk, Except.toBool]
        · rw [if_neg hq] at hres
          by_cases hmem : u ∈ game.answered_players
          · rw [if_pos hmem] at hres
            left
            have hr : r = .ok (.fail "Already answered") :=
              (congrArg Prod.snd hres).symm
            simp [hr, Except.isOk, Except.toBool]
          · rw [if_neg hmem] at hres
            cases hQ : pyGet Q qid with
            | none => exact Or.inr ⟨game, rfl, Or.inl rfl⟩
            | some question =>
              rw [hQ] at hres
              dsimp only at hres
              cases hA : pyGet question.options ai with
              | none =>
                exact Or.inr ⟨game, rfl, Or.inr ⟨question, rfl,
                  Or.inl hA⟩⟩
              | some chosen =>
                rw [hA] at hres
                dsimp only at hres
                cases hans : dlookup u game.answers with
                | none =>
                  exact Or.inr ⟨game, rfl, Or.inr ⟨question, rfl,
                    Or.inr (Or.inl hans)⟩⟩
                | some ledger =>
                  cases hcor : decide (ai = question.correct) with
                  | true =>
                    cases hsc : dlookup u game.scores with
                    | none =>
                      exact Or.inr ⟨game, rfl, Or.inr ⟨question, rfl,
                        Or.inr (Or.inr (Or.inl hsc))⟩⟩
                    | some sc0 =>
                      have hsession := GameSession.submit_answer_success
                        game u qid chosen true ledger sc0 hans hsc
                      rw [hcor, hsession] at hres
                      dsimp only at hres
                      cases hC : pyGet question.options question.correct
                          with
                      | none =>
                        exact Or.inr ⟨game, rfl, Or.inr ⟨question, rfl,
                          Or.inr (Or.inr (Or.inr hC))⟩⟩
                      | some ctext =>
                        rw [hC] at hres
                        dsimp only at hres
                        split at hres
                        · rename_i heq
                          simp only [apply_ite GameSession.scores] at heq
                          simp [dlookup_dinsert_self] at heq
                        · left
                          injection hres with h1 h2
                          rw [← h2]
                          rfl
                  | false =>
                    have hsession := GameSession.submit_answer_false
                      game u qid chosen ledger hans
                    rw [hcor, hsession] at hres
                    dsimp only at hres
                    cases hC : pyGet question.options question.correct
                        with
                    | none =>
                      exact Or.inr ⟨game, rfl, Or.inr ⟨question, rfl,
                        Or.inr (Or.inr (Or.inr hC))⟩⟩
                    | some ctext =>
                      rw [hC] at hres
                      dsimp only at hres
                      split at hres
                      · rename_i heq
                        simp only [apply_ite GameSession.scores] at heq
                        refine Or.inr ⟨game, rfl, Or.inr ⟨question, rfl,
                          Or.inr (Or.inr (Or.inl ?_))⟩⟩
                        simpa using heq
                      · left
                        injection hres with h1 h2
                        rw [← h2]
                        rfl

theorem buildRows_ok (Q : List Question) (game : GameSession)
    (l : List (Int × Nat))
    (h : ∀ p ∈ l, (dlookup p.1 game.players).isSome = true) :
    buildRows Q game l = .ok (l.map (fun p =>
      ⟨((dlookup p.1 game.players).map PlayerData.username).getD "",
        p.2, Q.length⟩)) := by
  induction l with
  | nil => rfl
  | cons p rest ih =>
    obtain ⟨uid, sc⟩ := p
    obtain ⟨pd, hpd⟩ := Option.isSome_iff_exists.mp
      (h (uid, sc) (List.mem_cons_self _ _))
    simp [buildRows, hpd,
      ih (fun q hq => h q (List.mem_cons_of_mem _ hq))]

/-- The comparator of the results sort is transitive. -/
theorem resultLe_trans (a b c : ResultRow)
    (h1 : decide (b.score ≤ a.score) = true)
    (h2 : decide (c.score ≤ b.score) = true) :
    decide (c.score ≤ a.score) = true := by
  simp at h1 h2 ⊢
  omega

/-- The comparator of the results sort is total. -/
theorem resultLe_total (a b : ResultRow) :
    (decide (b.score ≤ a.score) || decide (a.score ≤ b.score)) = true := by
  rcases Nat.le_total a.score b.score with h | h <;> simp [h]

/-- C6 (confirmed): for a live session whose score map covers exactly the
roster, get-results returns a list holding one `{name, score, total}`
row per roster participant (a permutation of the score map rendered in
join order), sorted by score descending, and any two rows of equal score
keep their relative join order (the sort is stable). -/
theorem get_results_sorted (Q : List Question) (gm : GameManager)
    (gid : String) (game : GameSession)
    (hg : dlookup (norm gid) gm.games = some game)
    (hkeys : dkeys game.scores = dkeys game.players) :
    ∃ r : List ResultRow,
      GameManager.get_results Q gm gid = some (.ok r) ∧
      r.Perm (game.scores.map (fun p =>
        ⟨((dlookup p.1 game.players).map PlayerData.username).getD "",
          p.2, Q.length⟩)) ∧
      r.Pairwise (fun a b => b.score ≤ a.score) ∧
      (∀ a b : ResultRow,
        List.Sublist [a, b] (game.scores.map (fun p =>
          ⟨((dlookup p.1 game.players).map PlayerData.username).getD "",
            p.2, Q.length⟩)) →
        b.score ≤ a.score → List.Sublist [a, b] r) := by
  have hmemP : ∀ p ∈ game.scores,
      (dlookup p.1 game.players).isSome = true := by
    intro p hp
    rw [dlookup_isSome_iff_mem_dkeys, ← hkeys]
    exact List.mem_map_of_mem Prod.fst hp
  have hrows := buildRows_ok Q game game.scores hmemP
  refine ⟨(game.scores.map (fun p =>
      ⟨((dlookup p.1 game.players).map PlayerData.username).getD "",
        p.2, Q.length⟩)).mergeSort
      (fun a b => decide (b.score ≤ a.score)), ?_, ?_, ?_, ?_⟩
  · simp [GameManager.get_results, hg, hrows]
  · exact List.mergeSort_perm _ _
  · have hp := List.sorted_mergeSort resultLe_trans resultLe_total
      (game.scores.map (fun p =>
        ⟨((dlookup p.1 game.players).map PlayerData.username).getD "",
          p.2, Q.length⟩))
    exact hp.imp (fun h => by simpa using h)
  · intro a b hsl hba
    exact List.pair_sublist_mergeSort resultLe_trans resultLe_total
      (by simpa using hba) hsl

/-- C6 witness: results of "AAAAAA" after user 1 scored on question 0:
alice (1 point) before bob (0 points). -/
theorem get_results_sorted_witness :
    ∃ r : List ResultRow,
      GameManager.get_results exQ exAnswered "AAAAAA" = some (.ok r) ∧
      r.Perm [⟨"alice", 1, 1⟩, ⟨"bob", 0, 1⟩] ∧
      r.Pairwise (fun a b => b.score ≤ a.score) ∧
      (∀ a b : ResultRow,
        List.Sublist [a, b] [⟨"alice", 1, 1⟩, ⟨"bob", 0, 1⟩] →
        b.score ≤ a.score → List.Sublist [a, b] r) :=
  get_results_sorted exQ exAnswered "AAAAAA"
    ((dlookup "AAAAAA" exAnswered.games).get (by decide))
    (by decide) (by decide)

/-- C9 counterexample: in the two-player session "AAAAAA" user 1 has
answered the current question; user 2 then leaves, naming the session's
own id.  The all-answered predicate becomes true (1 answered of 1
remaining), but the barrier is NOT released: `waiting_for_next` stays
clear, so waiters sleep on until the timeout — the claim requires the
barrier to be released here. -/
theorem leave_does_not_release_barrier :
    (exAnswered.leave_game "AAAAAA" 2).2 = true ∧
    (dlookup "AAAAAA" (exAnswered.leave_game "AAAAAA" 2).1.games).map
      (fun g => (g.all_players_answered, g.waiting_for_next))
      = some (true, false) := by
  decide

/-- C9 (amended): a leave by a user with a reverse-index entry removes
them from the roster, score map, answer ledger and answered-set of the
first stored session containing them and clears their reverse-index
entry; if that roster becomes empty and the id supplied in the request
names that session, the session is ended.  The barrier is NOT re-checked:
the surviving session keeps its previous `waiting_for_next` flag (the
removal itself is what makes the all-answered predicate true, but no
release happens until the next submission or the timeout). -/
theorem leave_game_spec (gm : GameManager) (rid : String) (u : Int)
    (gid : String) (game : GameSession) (hn : norm rid = rid)
    (hu : (dlookup u gm.user_games).isSome = true)
    (hfind : gm.games.find? (fun p => (dlookup u p.2.players).isSome)
      = some (gid, game)) :
    (gm.leave_game rid u).2 = true ∧
    dlookup u (gm.leave_game rid u).1.user_games = none ∧
    ((dkeys (derase u game.players)).length ≠ 0 →
      dlookup gid (gm.leave_game rid u).1.games = some { game with
        players := derase u game.players,
        scores := derase u game.scores,
        answers := derase u game.answers,
        answered_players := serase u game.answered_players } ∧
      ({ game with
        players := derase u game.players,
        scores := derase u game.scores,
        answers := derase u game.answers,
        answered_players :=
          serase u game.answered_players } : GameSession).waiting_for_next
        = game.waiting_for_next ∧
      (∀ c, c ≠ gid →
        dlookup c (gm.leave_game rid u).1.games = dlookup c gm.games)) ∧
    ((dkeys (derase u game.players)).length = 0 → rid = gid →
      dlookup gid (gm.leave_game rid u).1.games = none) := by
  have hleave : gm.leave_game rid u =
      (let g1 : GameSession := { game with
          players := derase u game.players,
          scores := derase u game.scores,
          answers := derase u game.answers,
          answered_players := serase u game.answered_players }
       let gm1 : GameManager := { gm with
          games := dinsert gid g1 gm.games,
          user_games := derase u gm.user_games }
       ((if (dkeys g1.players).length = 0 then gm1.end_game (norm rid)
         else gm1), true)) := by
    simp [GameManager.leave_game, hu, hfind]
  rw [hleave]
  dsimp only
  by_cases hempty : (dkeys (derase u game.players)).length = 0
  · rw [if_pos hempty]
    refine ⟨rfl, ?_, fun h => absurd hempty h, ?_⟩
    · rcases end_game_state { gm with
          games := dinsert gid { game with
            players := derase u game.players,
            scores := derase u game.scores,
            answers := derase u game.answers,
            answered_players := serase u game.answered_players } gm.games,
          user_games := derase u gm.user_games } (norm rid) with heq |
          ⟨g2, hlook2, heq⟩
      · rw [heq]
        exact dlookup_derase_self u gm.user_games
      · rw [heq]
        dsimp only
        rw [dlookup_foldl_derase]
        split
        · rfl
        · exact dlookup_derase_self u gm.user_games
    · intro _ hrg
      rw [hn, hrg]
      have hself : dlookup gid (dinsert gid { game with
          players := derase u game.players,
          scores := derase u game.scores,
          answers := derase u game.answers,
          answered_players := serase u game.answered_players } gm.games)
          = some { game with
          players := derase u game.players,
          scores := derase u game.scores,
          answers := derase u game.answers,
          answered_players := serase u game.answered_players } :=
        dlookup_dinsert_self _ _ _
      have hng : norm gid = gid := by rw [← hrg, hn]
      simp only [GameManager.end_game, hng, hself]
      exact dlookup_derase_self _ _
  · rw [if_neg hempty]
    refine ⟨rfl, dlookup_derase_self u gm.user_games, ?_,
      fun h => absurd h hempty⟩
    intro _
    exact ⟨dlookup_dinsert_self _ _ _, rfl,
      fun c hc => dlookup_dinsert_ne _ _ hc⟩

/-- C9 witness: user 2 leaves "AAAAAA" mid-question. -/
theorem leave_game_spec_witness :
    (exAnswered.leave_game "AAAAAA" 2).2 = true ∧
    dlookup 2 (exAnswered.leave_game "AAAAAA" 2).1.user_games = none ∧
    ((dkeys (derase 2 ((dlookup "AAAAAA" exAnswered.games).get
        (by decide)).players)).length ≠ 0 →
      dlookup "AAAAAA" (exAnswered.leave_game "AAAAAA" 2).1.games
        = some { (dlookup "AAAAAA" exAnswered.games).get (by decide) with
        players := derase 2 ((dlookup "AAAAAA" exAnswered.games).get
          (by decide)).players,
        scores := derase 2 ((dlookup "AAAAAA" exAnswered.games).get
          (by decide)).scores,
        answers := derase 2 ((dlookup "AAAAAA" exAnswered.games).get
          (by decide)).answers,
        answered_players := serase 2 ((dlookup "AAAAAA"
          exAnswered.games).get (by decide)).answered_players } ∧
      ({ (dlookup "AAAAAA" exAnswered.games).get (by decide) with
        players := derase 2 ((dlookup "AAAAAA" exAnswered.games).get
          (by decide)).players,
        scores := derase 2 ((dlookup "AAAAAA" exAnswered.games).get
          (by decide)).scores,
        answers := derase 2 ((dlookup "AAAAAA" exAnswered.games).get
          (by decide)).answers,
        answered_players := serase 2 ((dlookup "AAAAAA"
          exAnswered.games).get
          (by decide)).answered_players } : GameSession).waiting_for_next
        = ((dlookup "AAAAAA" exAnswered.games).get
          (by decide)).waiting_for_next ∧
      (∀ c, c ≠ "AAAAAA" →
        dlookup c (exAnswered.leave_game "AAAAAA" 2).1.games
          = dlookup c exAnswered.games)) ∧
    ((dkeys (derase 2 ((dlookup "AAAAAA" exAnswered.games).get
        (by decide)).players)).length = 0 → "AAAAAA" = "AAAAAA" →
      dlookup "AAAAAA" (exAnswered.leave_game "AAAAAA" 2).1.games
        = none) :=
  leave_game_spec exAnswered "AAAAAA" 2 "AAAAAA"
    ((dlookup "AAAAAA" exAnswered.games).get (by decide))
    (by decide) (by decide) (by decide)

/-- Spec invariant on one session: unique keys, a well-formed answered-set
inside the roster, and score/ledger maps keyed exactly by the roster. -/
def SInv (s : GameSession) : Prop :=
  (dkeys s.players).Nodup ∧ s.answered_players.Nodup ∧
  (∀ x ∈ s.answered_players, x ∈ dkeys s.players) ∧
  dkeys s.scores = dkeys s.players ∧ dkeys s.answers = dkeys s.players

/-- The registry invariant: every stored session satisfies `SInv`. -/
def Inv (gm : GameManager) : Prop := ∀ p ∈ gm.games, SInv p.2

theorem SInv_init (id : String) (c : Int) (n : String) (t : Nat) :
    SInv (GameSession.init id c n t) := by
  simp [SInv, GameSession.init, GameSession.add_player, dinsert, dkeys,
    dlookup, MAX_PLAYERS]

theorem add_player_answered (s : GameSession) (u : Int) (n : String) :
    ((s.add_player u n).1).answered_players = s.answered_players := by
  unfold GameSession.add_player
  split <;> rfl

theorem SInv_add_player (s : GameSession) (u : Int) (n : String)
    (h : SInv s) : SInv ((s.add_player u n).1) := by
  obtain ⟨h1, h2, h3, h4, h5⟩ := h
  unfold GameSession.add_player
  split
  · rename_i hc
    obtain ⟨habs, hlt⟩ := hc
    dsimp only
    have hnone : dlookup u s.players = none := by
      cases hl : dlookup u s.players
      · rfl
      · rw [hl] at habs; simp at habs
    have humem : u ∉ dkeys s.players := by
      intro hm
      rw [← dlookup_isSome_iff_mem_dkeys, hnone] at hm
      simp at hm
    have hnoneS : dlookup u s.scores = none := by
      cases hl : dlookup u s.scores
      · rfl
      · exact absurd (h4 ▸ (dlookup_isSome_iff_mem_dkeys u s.scores).mp
          (by simp [hl])) humem
    have hnoneA : dlookup u s.answers = none := by
      cases hl : dlookup u s.answers
      · rfl
      · exact absurd (h5 ▸ (dlookup_isSome_iff_mem_dkeys u s.answers).mp
          (by simp [hl])) humem
    refine ⟨?_, h2, ?_, ?_, ?_⟩
    · rw [dkeys_dinsert_of_none _ _ _ hnone]
      refine List.Nodup.append h1 (List.nodup_singleton u) ?_
      intro x hx hx'
      simp only [List.mem_singleton] at hx'
      exact humem (hx' ▸ hx)
    · intro x hx
      rw [dkeys_dinsert_of_none _ _ _ hnone]
      exact List.mem_append_left _ (h3 x hx)
    · rw [dkeys_dinsert_of_none _ _ _ hnoneS,
        dkeys_dinsert_of_none _ _ _ hnone, h4]
    · rw [dkeys_dinsert_of_none _ _ _ hnoneA,
        dkeys_dinsert_of_none _ _ _ hnone, h5]
  · exact ⟨h1, h2, h3, h4, h5⟩

theorem Inv_create (gm : GameManager) (code : String) (cid : Int)
    (cn : String) (t : Nat) (h : Inv gm) :
    Inv (gm.create_game code cid cn t).1 := by
  intro p hp
  have hg : (gm.create_game code cid cn t).1.games
      = dinsert code (GameSession.init code cid cn t) gm.games := rfl
  rw [hg] at hp
  rcases mem_dinsert _ _ _ hp with rfl | hp'
  · exact SInv_init code cid cn t
  · exact h p hp'

theorem Inv_join (gm : GameManager) (gid : String) (u : Int) (n : String)
    (h : Inv gm) : Inv (gm.join_game gid u n).1 := by
  rcases join_game_state gm gid u n with heq | ⟨game, g1, hlook, hadd, heq⟩
  · rw [heq]; exact h
  · rw [heq]
    intro p hp
    have hp2 : p ∈ dinsert (norm gid) g1 gm.games := hp
    rcases mem_dinsert _ _ _ hp2 with rfl | hp'
    · show SInv g1
      have hg1 : g1 = (game.add_player u n).1 := by rw [hadd]
      rw [hg1]
      exact SInv_add_player game u n (h _ (dlookup_mem hlook))
    · exact h p hp'

theorem Inv_submit (Q : List Question) (gm : GameManager) (gid : String)
    (u qid ai : Int) (h : Inv gm) :
    Inv (GameManager.submit_answer Q gm gid u qid ai).1 := by
  rcases submit_answer_state Q gm gid u qid ai with heq |
    ⟨game, g', hlook, heq, hpl, hsk, hak, hansOr⟩
  · rw [heq]; exact h
  · rw [heq]
    intro p hp
    have hp2 : p ∈ dinsert (norm gid) g' gm.games := hp
    rcases mem_dinsert _ _ _ hp2 with rfl | hp'
    · show SInv g'
      obtain ⟨h1, h2, h3, h4, h5⟩ := h _ (dlookup_mem hlook)
      refine ⟨hpl ▸ h1, ?_, ?_, ?_, ?_⟩
      · rcases hansOr with he | ⟨hu, he⟩
        · rw [he]; exact h2
        · rw [he]; exact nodup_sadd u h2
      · intro x hx
        rw [hpl]
        rcases hansOr with he | ⟨hu, he⟩
        · rw [he] at hx; exact h3 x hx
        · rw [he] at hx
          rcases (mem_sadd u x game.answered_players).mp hx with hx' | rfl
          · exact h3 x hx'
          · rw [← h5]
            exact (dlookup_isSome_iff_mem_dkeys x game.answers).mp hu
      · rw [hsk, hpl, h4]
      · rw [hak, hpl, h5]
    · exact h p hp'

theorem Inv_next (Q : List Question) (gm : GameManager) (gid : String)
    (h : Inv gm) : Inv (GameManager.next_question Q gm gid).1 := by
  rcases next_question_state Q gm gid with heq | ⟨game, hlook, hs, heq⟩
  · rw [heq]; exact h
  · rw [heq]
    intro p hp
    rcases mem_dinsert _ _ _ hp with rfl | hp'
    · obtain ⟨h1, h2, h3, h4, h5⟩ := h _ (dlookup_mem hlook)
      constructor
      · show (dkeys (let g2 := ({ game with
            current_question :=
              game.current_question + 1 }).reset_for_next_question
          if Q.length ≤ g2.current_question then
            { g2 with finished := true }
          else g2).players).Nodup
        dsimp only [GameSession.reset_for_next_question]
        split <;> exact h1
      · constructor
        · show (let g2 := ({ game with
              current_question :=
                game.current_question + 1 }).reset_for_next_question
            if Q.length ≤ g2.current_question then
              { g2 with finished := true }
            else g2).answered_players.Nodup
          dsimp only [GameSession.reset_for_next_question]
          split <;> exact List.nodup_nil
        · constructor
          · intro x hx
            revert hx
            show x ∈ (let g2 := ({ game with
                current_question :=
                  game.current_question + 1 }).reset_for_next_question
              if Q.length ≤ g2.current_question then
                { g2 with finished := true }
              else g2).answered_players → _
            dsimp only [GameSession.reset_for_next_question]
            split <;> simp
          · constructor
            · show dkeys (let g2 := ({ game with
                  current_question :=
                    game.current_question + 1 }).reset_for_next_question
                if Q.length ≤ g2.current_question then
                  { g2 with finished := true }
                else g2).scores = _
              dsimp only [GameSession.reset_for_next_question]
              split <;> exact h4
            · show dkeys (let g2 := ({ game with
                  current_question :=
                    game.current_question + 1 }).reset_for_next_question
                if Q.length ≤ g2.current_question then
                  { g2 with finished := true }
                else g2).answers = _
              dsimp only [GameSession.reset_for_next_question]
              split <;> exact h5
    · exact h p hp'

theorem SInv_leave_session (game : GameSession) (u : Int)
    (h : SInv game) : SInv { game with
      players := derase u game.players,
      scores := derase u game.scores,
      answers := derase u game.answers,
      answered_players := serase u game.answered_players } := by
  obtain ⟨h1, h2, h3, h4, h5⟩ := h
  refine ⟨?_, ?_, ?_, ?_, ?_⟩
  · rw [dkeys_derase]
    exact h1.filter _
  · exact h2.filter _
  · intro x hx
    rw [mem_serase] at hx
    rw [dkeys_derase, List.mem_filter]
    exact ⟨h3 x hx.1, by simpa using hx.2⟩
  · rw [dkeys_derase, dkeys_derase, h4]
  · rw [dkeys_derase, dkeys_derase, h5]

theorem Inv_end (gm : GameManager) (gid : String) (h : Inv gm) :
    Inv (gm.end_game gid) := by
  rcases end_game_state gm gid with heq | ⟨game, hlook, heq⟩
  · rw [heq]; exact h
  · rw [heq]
    intro p hp
    exact h p (mem_derase _ _ hp)

theorem Inv_leave (gm : GameManager) (rid : String) (u : Int)
    (h : Inv gm) : Inv (gm.leave_game rid u).1 := by
  rcases leave_game_state gm rid u with heq | ⟨gid, game, hfind, heq⟩
  · rw [heq]; exact h
  · rw [heq]
    have hmem : (gid, game) ∈ gm.games := List.mem_of_find?_eq_some hfind
    have hb1 : Inv { gm with
        games := dinsert gid { game with
          players := derase u game.players,
          scores := derase u game.scores,
          answers := derase u game.answers,
          answered_players := serase u game.answered_players } gm.games,
        user_games := derase u gm.user_games } := by
      intro p hp
      have hp2 : p ∈ dinsert gid { game with
          players := derase u game.players,
          scores := derase u game.scores,
          answers := derase u game.answers,
          answered_players := serase u game.answered_players }
          gm.games := hp
      rcases mem_dinsert _ _ _ hp2 with rfl | hp'
      · exact SInv_leave_session game u (h _ hmem)
      · exact h p hp'
    dsimp only
    split
    · exact Inv_end _ _ hb1
    · exact hb1

theorem init_answered (id : String) (c : Int) (n : String) (t : Nat) :
    (GameSession.init id c n t).answered_players = [] := by
  unfold GameSession.init
  rw [add_player_answered]

theorem dlookup_eq_of_mem_nodup {κ β : Type} [DecidableEq κ] {k : κ}
    {v : β} {l : List (κ × β)} (hnd : (dkeys l).Nodup)
    (hm : (k, v) ∈ l) : dlookup k l = some v := by
  induction l with
  | nil => cases hm
  | cons p rest ih =>
    simp only [dkeys, List.map_cons, List.nodup_cons] at hnd
    rcases List.mem_cons.mp hm with rfl | hmem
    · simp [dlookup]
    · by_cases hp : p.1 = k
      · exact absurd (List.mem_map_of_mem Prod.fst hmem)
          (hp ▸ hnd.1)
      · simp only [dlookup, if_neg hp]
        exact ih hnd.2 hmem

/-- Advance clears the advanced session's answered-set and re-arms the
barrier. -/
theorem next_question_clears_answered (Q : List Question)
    (gm : GameManager) (gid : String) (game : GameSession)
    (hg : dlookup (norm gid) gm.games = some game)
    (hs : game.started = true) :
    ∃ g', dlookup (norm gid)
        (GameManager.next_question Q gm gid).1.games = some g' ∧
      g'.answered_players = [] ∧ g'.waiting_for_next = false := by
  have hres : (GameManager.next_question Q gm gid).1 =
      GameManager.setGame gm (norm gid)
        (let g2 := ({ game with
            current_question :=
              game.current_question + 1 }).reset_for_next_question
         if Q.length ≤ g2.current_question then { g2 with finished := true }
         else g2) := by
    simp [GameManager.next_question, hg, hs]
  rw [hres]
  refine ⟨_, dlookup_dinsert_self _ _ _, ?_, ?_⟩ <;>
    (dsimp only [GameSession.reset_for_next_question]; split <;> rfl)

/-- A submission never removes anyone from any session's answered-set. -/
theorem submit_answer_grows_answered (Q : List Question)
    (gm : GameManager) (gid : String) (u qid ai : Int) (c : String)
    (g' : GameSession)
    (hl' : dlookup c
      (GameManager.submit_answer Q gm gid u qid ai).1.games = some g') :
    ∃ g, dlookup c gm.games = some g ∧
      g.answered_players ⊆ g'.answered_players := by
  rcases submit_answer_state Q gm gid u qid ai with heq |
    ⟨game, gS, hlook, heq, hpl, hsk, hak, hansOr⟩
  · rw [heq] at hl'
    exact ⟨g', hl', fun x hx => hx⟩
  · rw [heq] at hl'
    have hl2 : dlookup c (dinsert (norm gid) gS gm.games) = some g' := hl'
    rw [dlookup_dinsert_cases] at hl2
    by_cases hc : c = norm gid
    · rw [if_pos hc] at hl2
      obtain rfl : gS = g' := Option.some.inj hl2
      refine ⟨game, by rw [hc]; exact hlook, ?_⟩
      rcases hansOr with he | ⟨hu, he⟩
      · rw [he]; exact fun x hx => hx
      · rw [he]
        intro x hx
        exact (mem_sadd u x game.answered_players).mpr (Or.inl hx)
    · rw [if_neg hc] at hl2
      exact ⟨g', hl2, fun x hx => hx⟩

/-- A join leaves every session's answered-set unchanged. -/
theorem join_preserves_answered (gm : GameManager) (gid : String)
    (u : Int) (n : String) (c : String) (g' : GameSession)
    (hl' : dlookup c (gm.join_game gid u n).1.games = some g') :
    ∃ g, dlookup c gm.games = some g ∧
      g'.answered_players = g.answered_players := by
  rcases join_game_state gm gid u n with heq | ⟨game, g1, hlook, hadd, heq⟩
  · rw [heq] at hl'
    exact ⟨g', hl', rfl⟩
  · rw [heq] at hl'
    have hl2 : dlookup c (dinsert (norm gid) g1 gm.games) = some g' := hl'
    rw [dlookup_dinsert_cases] at hl2
    by_cases hc : c = norm gid
    · rw [if_pos hc] at hl2
      obtain rfl : g1 = g' := Option.some.inj hl2
      refine ⟨game, by rw [hc]; exact hlook, ?_⟩
      have hg1 : g1 = (game.add_player u n).1 := by rw [hadd]
      rw [hg1, add_player_answered]
    · rw [if_neg hc] at hl2
      exact ⟨g', hl2, rfl⟩

/-- Create leaves existing sessions' answered-sets unchanged and gives the
new session an empty one. -/
theorem create_answered (gm : GameManager) (code : String) (cid : Int)
    (cn : String) (t : Nat) (c : String) (g' : GameSession)
    (hl' : dlookup c (gm.create_game code cid cn t).1.games = some g') :
    g'.answered_players = [] ∨
    ∃ g, dlookup c gm.games = some g ∧
      g'.answered_players = g.answered_players := by
  have hg : (gm.create_game code cid cn t).1.games
      = dinsert code (GameSession.init code cid cn t) gm.games := rfl
  rw [hg, dlookup_dinsert_cases] at hl'
  by_cases hc : c = code
  · rw [if_pos hc] at hl'
    obtain rfl : GameSession.init code cid cn t = g' :=
      Option.some.inj hl'
    exact Or.inl (init_answered code cid cn t)
  · rw [if_neg hc] at hl'
    exact Or.inr ⟨g', hl', rfl⟩

/-- A leave removes at most the leaver from any surviving session's
answered-set. -/
theorem leave_removes_only_leaver (gm : GameManager) (rid : String)
    (u : Int) (c : String) (g' : GameSession)
    (hnd : (dkeys gm.games).Nodup)
    (hl' : dlookup c (gm.leave_game rid u).1.games = some g') :
    ∃ g, dlookup c gm.games = some g ∧
      (g'.answered_players = g.answered_players ∨
       g'.answered_players = serase u g.answered_players) := by
  rcases leave_game_state gm rid u with heq | ⟨gid, game, hfind, heq⟩
  · rw [heq] at hl'
    exact ⟨g', hl', Or.inl rfl⟩
  · rw [heq] at hl'
    dsimp only at hl'
    have hgm1 : ∀ (hl2 : dlookup c (dinsert gid { game with
        players := derase u game.players,
        scores := derase u game.scores,
        answers := derase u game.answers,
        answered_players := serase u game.answered_players } gm.games)
        = some g'),
        ∃ g, dlookup c gm.games = some g ∧
          (g'.answered_players = g.answered_players ∨
           g'.answered_players = serase u g.answered_players) := by
      intro hl2
      rw [dlookup_dinsert_cases] at hl2
      by_cases hc : c = gid
      · rw [if_pos hc] at hl2
        have hgame : dlookup gid gm.games = some game :=
          dlookup_eq_of_mem_nodup hnd (List.mem_of_find?_eq_some hfind)
        obtain rfl := Option.some.inj hl2
        exact ⟨game, by rw [hc]; exact hgame, Or.inr rfl⟩
      · rw [if_neg hc] at hl2
        exact ⟨g', hl2, Or.inl rfl⟩
    by_cases hempty : (dkeys (derase u game.players)).length = 0
    · rw [if_pos hempty] at hl'
      rcases end_game_state { gm with
          games := dinsert gid { game with
            players := derase u game.players,
            scores := derase u game.scores,
            answers := derase u game.answers,
            answered_players := serase u game.answered_players } gm.games,
          user_games := derase u gm.user_games } (norm rid) with heq2 |
          ⟨game2, hlook2, heq2⟩
      · rw [heq2] at hl'
        exact hgm1 hl'
      · rw [heq2] at hl'
        dsimp only at hl'
        rw [dlookup_derase_cases] at hl'
        by_cases hcr : c = norm (norm rid)
        · rw [if_pos hcr] at hl'
          cases hl'
        · rw [if_neg hcr] at hl'
          exact hgm1 hl'
    · rw [if_neg hempty] at hl'
      exact hgm1 hl'

/-- C10 (confirmed): a fresh session satisfies the invariant with an
empty answered-set; every registry operation of the claim preserves, for
every stored session, that the answered-set is duplicate-free and a
subset of the roster and that the score map and the answer-ledger map are
keyed exactly by the roster; the answered-set is cleared by advance, only
ever grows under submit-answer, is untouched by join and create, and
loses exactly the leaver under leave (which can only empty it
incidentally — the wholesale clear happens exactly on advance). -/
theorem answered_set_and_key_invariants :
    (∀ (id : String) (c : Int) (n : String) (t : Nat),
      SInv (GameSession.init id c n t) ∧
      (GameSession.init id c n t).answered_players = []) ∧
    (∀ (gm : GameManager) (code : String) (cid : Int) (cn : String)
      (t : Nat), Inv gm → Inv (gm.create_game code cid cn t).1) ∧
    (∀ (gm : GameManager) (gid : String) (u : Int) (n : String),
      Inv gm → Inv (gm.join_game gid u n).1) ∧
    (∀ (Q : List Question) (gm : GameManager) (gid : String)
      (u qid ai : Int), Inv gm →
      Inv (GameManager.submit_answer Q gm gid u qid ai).1) ∧
    (∀ (Q : List Question) (gm : GameManager) (gid : String),
      Inv gm → Inv (GameManager.next_question Q gm gid).1) ∧
    (∀ (gm : GameManager) (rid : String) (u : Int),
      Inv gm → Inv (gm.leave_game rid u).1) ∧
    (∀ (Q : List Question) (gm : GameManager) (gid : String)
      (game : GameSession), dlookup (norm gid) gm.games = some game →
      game.started = true →
      ∃ g', dlookup (norm gid)
          (GameManager.next_question Q gm gid).1.games = some g' ∧
        g'.answered_players = [] ∧ g'.waiting_for_next = false) ∧
    (∀ (Q : List Question) (gm : GameManager) (gid : String)
      (u qid ai : Int) (c : String) (g' : GameSession),
      dlookup c (GameManager.submit_answer Q gm gid u qid ai).1.games
        = some g' →
      ∃ g, dlookup c gm.games = some g ∧
        g.answered_players ⊆ g'.answered_players) ∧
    (∀ (gm : GameManager) (gid : String) (u : Int) (n : String)
      (c : String) (g' : GameSession),
      dlookup c (gm.join_game gid u n).1.games = some g' →
      ∃ g, dlookup c gm.games = some g ∧
        g'.answered_players = g.answered_players) ∧
    (∀ (gm : GameManager) (code : String) (cid : Int) (cn : String)
      (t : Nat) (c : String) (g' : GameSession),
      dlookup c (gm.create_game code cid cn t).1.games = some g' →
      g'.answered_players = [] ∨
      ∃ g, dlookup c gm.games = some g ∧
        g'.answered_players = g.answered_players) ∧
    (∀ (gm : GameManager) (rid : String) (u : Int) (c : String)
      (g' : GameSession), (dkeys gm.games).Nodup →
      dlookup c (gm.leave_game rid u).1.games = some g' →
      ∃ g, dlookup c gm.games = some g ∧
        (g'.answered_players = g.answered_players ∨
         g'.answered_players = serase u g.answered_players)) :=
  ⟨fun id c n t => ⟨SInv_init id c n t, init_answered id c n t⟩,
    Inv_create, Inv_join, Inv_submit, Inv_next, Inv_leave,
    next_question_clears_answered, submit_answer_grows_answered,
    join_preserves_answered, create_answered,
    fun gm rid u c g' hnd hl' =>
      leave_removes_only_leaver gm rid u c g' hnd hl'⟩

/-- C10 witness: the registry holding the freshly created "AAAAAA"
satisfies the invariant. -/
theorem answered_set_and_key_invariants_witness : Inv exCreated :=
  answered_set_and_key_invariants.2.1 exEmpty "AAAAAA" 1 "alice" 0
    (by intro p hp; cases hp)

end BotKviz
